import Mathlib

/-!
Shallow embedding of the OntsugiCRM pricing, grouping and accounting-export
logic, together with proofs of the specified properties.

Conventions used throughout:
* JavaScript numbers are modelled as exact rationals (`ℚ`); all the amounts
  handled by the program are integer yen, where this model agrees with IEEE
  doubles.
* JavaScript `Date` objects are modelled by `JsDate` (epoch milliseconds plus
  the civil UTC components).  The model corresponds to running with TZ=UTC.
* Strings keep their JavaScript contents (including the Japanese field names
  and statuses); `localeCompare` ordering is modelled as code-point
  lexicographic comparison, which is only used as an arbitrary total order.
* `async` service methods whose effects are reads/writes of an in-memory map
  or the remote record store are modelled as pure functions over the relevant
  state, and `ApiResponse` success/failure is modelled with `Except ApiError`.
-/

namespace OntsugiCRM

/-- Model of `Math.floor` on a JS number, using exact rationals. -/
def jsFloor (q : ℚ) : ℚ := (q.floor : ℚ)

/-- Model of JS `ToInteger` truncation (used by the `Date` constructor). -/
def jsTrunc (q : ℚ) : Int := q.num.tdiv (q.den : Int)

/-- One insertion step of an insertion sort. -/
def insertSorted (le : α → α → Bool) (a : α) : List α → List α
  | [] => [a]
  | b :: l => if le a b then a :: b :: l else b :: insertSorted le a l

/-- Model of `Array.prototype.sort(cmp)`: a stable comparison sort.  Only the
multiset of elements matters for the properties proved below. -/
def jsSortBy (le : α → α → Bool) (l : List α) : List α :=
  l.foldr (insertSorted le) []

/-- Lexicographic code-point comparison of char lists; used to model the
`localeCompare`-based sort comparators. -/
def charListLe : List Char → List Char → Bool
  | [], _ => true
  | _ :: _, [] => false
  | a :: as, b :: bs => if a = b then charListLe as bs else decide (a < b)

/-- Model of the ordering induced by `a.localeCompare(b) <= 0`. -/
def jsStrLe (a b : String) : Bool := charListLe a.data b.data

/-- Check whether `l` starts with `pat`. -/
def charListStartsWith : List Char → List Char → Bool
  | _, [] => true
  | [], _ :: _ => false
  | a :: as, b :: bs => a = b && charListStartsWith as bs

/-- Check whether `pat` occurs as a contiguous sublist of `l`. -/
def charListContainsSub : List Char → List Char → Bool
  | l, pat =>
    if charListStartsWith l pat then true
    else
      match l with
      | [] => false
      | _ :: t => charListContainsSub t pat

/-- Model of `s.includes(t)` on strings. -/
def strContains (s t : String) : Bool := charListContainsSub s.data t.data

/-- Model of `s.padStart(2, '0')`. -/
def padStart2 (s : String) : String :=
  if s.length < 2 then String.mk (List.replicate (2 - s.length) '0') ++ s else s

/-- Decimal digits to a natural number. -/
def digitsToNat (l : List Char) : Nat :=
  l.foldl (fun n c => n * 10 + (c.toNat - 48)) 0

/-- Model of `parseFloat(s) || 0`: parses an optional sign followed by a
decimal literal (integer part, optional fraction); unparsable input (the `NaN`
case) yields `0` through the `|| 0` fallback.  Exponent notation and special
values are not modelled; no caller in this repository feeds them. -/
def parseJsFloat (s : String) : ℚ :=
  let l := s.data.dropWhile (fun c => c = ' ')
  let sign : ℚ × List Char :=
    match l with
    | '-' :: t => (-1, t)
    | '+' :: t => (1, t)
    | _ => (1, l)
  let intPart := sign.2.takeWhile (·.isDigit)
  let rest := sign.2.dropWhile (·.isDigit)
  let fracPart :=
    match rest with
    | '.' :: t => t.takeWhile (·.isDigit)
    | _ => []
  if intPart = [] ∧ fracPart = [] then 0
  else
    sign.1 * ((digitsToNat intPart : ℚ) +
      (digitsToNat fracPart : ℚ) / ((10 : ℚ) ^ fracPart.length))

/-- Civil UTC date from a count of days since 1970-01-01 (the standard
days-to-civil algorithm for the proleptic Gregorian calendar). -/
def civilFromDays (z0 : Int) : Int × Nat × Nat :=
  let z := z0 + 719468
  let era := z.ediv 146097
  let doe := z.emod 146097
  let yoe := (doe - doe.ediv 1460 + doe.ediv 36524 - doe.ediv 146096).ediv 365
  let y := yoe + era * 400
  let doy := doe - (365 * yoe + yoe.ediv 4 - yoe.ediv 100)
  let mp := (5 * doy + 2).ediv 153
  let d := doy - (153 * mp + 2).ediv 5 + 1
  let m := if mp < 10 then mp + 3 else mp - 9
  (y + (if m ≤ 2 then 1 else 0), m.toNat, d.toNat)

/-- Days since 1970-01-01 from a civil UTC date (inverse algorithm). -/
def daysFromCivil (y0 : Int) (m d : Nat) : Int :=
  let y := y0 - (if m ≤ 2 then 1 else 0)
  let era := y.ediv 400
  let yoe := y - era * 400
  let doy := ((153 * ((m : Int) + (if 2 < m then -3 else 9)) + 2).ediv 5) + d - 1
  let doe := yoe * 365 + yoe.ediv 4 - yoe.ediv 100 + doy
  era * 146097 + doe - 719468

/-- Model of a JS `Date`: epoch milliseconds plus the civil UTC components
(`getFullYear()`, `getMonth() + 1`, `getDate()`). -/
structure JsDate where
  time : Int
  year : Int
  month : Nat
  day : Nat
deriving DecidableEq, Repr

/-- Model of `new Date(ms)` (components taken in UTC). -/
def JsDate.ofMillis (ms : Int) : JsDate :=
  let c := civilFromDays (ms.ediv 86400000)
  ⟨ms, c.1, c.2.1, c.2.2⟩

/-- Parse the decimal digits of a char list, if nonempty and all digits. -/
def parseNatDigits (l : List Char) : Option Nat :=
  if l ≠ [] ∧ l.all (·.isDigit) then some (digitsToNat l) else none

/-- Model of `Date.parse` restricted to `YYYY-MM-DD` calendar-date strings
(interpreted at UTC midnight, as in JS); every other input is treated as the
`NaN` result.  No caller in this repository stores other date-string formats. -/
def parseISODate (s : String) : Option Int :=
  match (s.data.splitOn '-').map parseNatDigits with
  | [some y, some m, some d] => some (86400000 * daysFromCivil (y : Int) m d)
  | _ => none

/-- Model of a dynamically-typed LarkBase field value as delivered by the
remote API: numbers (possibly as numeric strings), strings, booleans,
`{ text, id }` select objects, and arrays of values. -/
inductive FieldValue where
  | num (v : ℚ)
  | str (s : String)
  | boolVal (b : Bool)
  | textObj (text : String) (optId : String)
  | arr (elems : List FieldValue)

/-- JS truthiness of a field value. -/
def jsTruthy : FieldValue → Bool
  | .num v => v ≠ 0
  | .str s => s ≠ ""
  | .boolVal b => b
  | .textObj _ _ => true
  | .arr _ => true

/-- Model of the JS `String(...)` coercion on a field value.  Non-integer
numbers are rendered as `num/den`, which differs from JS decimal notation;
only string-valued fields reach this coercion in the repository. -/
def jsToString : FieldValue → String
  | .num v => if v.den = 1 then toString v.num else toString v
  | .str s => s
  | .boolVal b => if b then "true" else "false"
  | .textObj _ _ => "[object Object]"
  | .arr _ => ""

/-- Model of `LarkBaseRecord` from `src/types/index.ts`; `fields` is the
field-label-keyed mapping, modelled as an association list. -/
structure LarkBaseRecord where
  record_id : String
  fields : List (String × FieldValue)
  created_time : Option Int
  last_modified_time : Option Int

/-- Model of `ProjectItem` from `src/config/larkbase-mapping.ts`.  The
`ContentType`, `ProjectStatus` and `ClientName` string-literal unions are
modelled as `String`, because the source reaches them through unchecked
TypeScript casts of arbitrary remote data. -/
structure ProjectItem where
  recordId : String
  projectName : String
  contentType : String
  quantity : ℚ
  unitPrice : ℚ
  amount : ℚ
  scheduledDate : Option JsDate
  submissionDate : Option JsDate
  status : String
  isInvoiced : Bool
  clientName : String
  notes : Option String
  invoiceDate : Option JsDate
  invoiceMonth : Option String
  createdAt : Option JsDate
  updatedAt : Option JsDate
deriving DecidableEq, Repr

namespace ProjectItemService

/-- Helper `getSelectValue` of `ProjectItemService.recordToProjectItem`:
select-field values arrive as a bare string, a `{ text, id }` object, or an
array of either; anything else falls back to the default. -/
def getSelectValue (fields : List (String × FieldValue)) (fieldName dflt : String) :
    String :=
  match List.lookup fieldName fields with
  | some (.str s) => s
  | some (.textObj t _) => t
  | some (.arr (v :: _)) =>
    match v with
    | .str s => s
    | .textObj t _ => t
    | _ => dflt
  | _ => dflt

/-- Helper `getDateValue` of `recordToProjectItem`: epoch-millisecond numbers
and parsable date strings become dates, everything else `undefined`. -/
def getDateValue (fields : List (String × FieldValue)) (fieldName : String) :
    Option JsDate :=
  match List.lookup fieldName fields with
  | some (.num v) => some (JsDate.ofMillis (jsTrunc v))
  | some (.str s) => (parseISODate s).map JsDate.ofMillis
  | _ => none

/-- Helper `getNumberValue` of `recordToProjectItem`: numbers pass through,
numeric strings are coerced via `parseFloat(value) || 0`, others become 0. -/
def getNumberValue (fields : List (String × FieldValue)) (fieldName : String) : ℚ :=
  match List.lookup fieldName fields with
  | some (.num v) => v
  | some (.str s) => parseJsFloat s
  | _ => 0

/-- Model of `ProjectItemService.recordToProjectItem`.  Note that `amount` is
read from the record's 金額 field exactly like any other number field; it is
not recomputed from 数量 × 単価. -/
def recordToProjectItem (record : LarkBaseRecord) : ProjectItem where
  recordId := record.record_id
  projectName :=
    match List.lookup ("案件名") record.fields with
    | some v => if jsTruthy v then jsToString v else ""
    | none => ""
  contentType := getSelectValue record.fields ("内容") ("編集")
  quantity := getNumberValue record.fields ("数量")
  unitPrice := getNumberValue record.fields ("単価")
  amount := getNumberValue record.fields ("金額")
  scheduledDate := getDateValue record.fields ("初稿予定日")
  submissionDate := getDateValue record.fields ("初稿提出日")
  status := getSelectValue record.fields ("案件状況") ("未着手")
  isInvoiced :=
    match List.lookup ("請求済") record.fields with
    | some v => jsTruthy v
    | none => false
  clientName := getSelectValue record.fields ("クライアント名") ("株式会社ontsugi")
  notes :=
    match List.lookup ("備考") record.fields with
    | some (.str s) => some s
    | _ => none
  invoiceDate := getDateValue record.fields ("請求日")
  invoiceMonth :=
    match List.lookup ("請求月") record.fields with
    | some (.str s) => some s
    | _ => none
  createdAt :=
    match record.created_time with
    | some t => if t ≠ 0 then some (JsDate.ofMillis t) else none
    | none => none
  updatedAt :=
    match record.last_modified_time with
    | some t => if t ≠ 0 then some (JsDate.ofMillis t) else none
    | none => none

/-- Model of `Partial<ProjectItem>` as it is fed to `projectItemToFields`
(only the writable fields appear there). -/
structure PartialProjectItem where
  projectName : Option String := none
  contentType : Option String := none
  quantity : Option ℚ := none
  unitPrice : Option ℚ := none
  scheduledDate : Option JsDate := none
  submissionDate : Option JsDate := none
  status : Option String := none
  isInvoiced : Option Bool := none
  clientName : Option String := none
  notes : Option String := none
  invoiceDate : Option JsDate := none

/-- Model of `ProjectItemService.projectItemToFields`: emits one labelled
field per defined property, in source order; 請求月 (a lookup field) is never
written. -/
def projectItemToFields (item : PartialProjectItem) : List (String × FieldValue) :=
  (match item.projectName with
    | some v => [(("案件名" : String), FieldValue.str v)] | none => []) ++
  (match item.contentType with
    | some v => [(("内容" : String), FieldValue.str v)] | none => []) ++
  (match item.quantity with
    | some v => [(("数量" : String), FieldValue.num v)] | none => []) ++
  (match item.unitPrice with
    | some v => [(("単価" : String), FieldValue.num v)] | none => []) ++
  (match item.scheduledDate with
    | some v => [(("初稿予定日" : String), FieldValue.num (v.time : ℚ))] | none => []) ++
  (match item.submissionDate with
    | some v => [(("初稿提出日" : String), FieldValue.num (v.time : ℚ))] | none => []) ++
  (match item.status with
    | some v => [(("案件状況" : String), FieldValue.str v)] | none => []) ++
  (match item.isInvoiced with
    | some v => [(("請求済" : String), FieldValue.boolVal v)] | none => []) ++
  (match item.clientName with
    | some v => [(("クライアント名" : String), FieldValue.str v)] | none => []) ++
  (match item.notes with
    | some v => [(("備考" : String), FieldValue.str v)] | none => []) ++
  (match item.invoiceDate with
    | some v => [(("請求日" : String), FieldValue.num (v.time : ℚ))] | none => [])

/-- Update payload sent by `ProjectItemService.markAsInvoiced(recordId, d)`:
the fields produced from the partial item `{ isInvoiced: true, invoiceDate: d }`. -/
def markAsInvoicedFields (invoiceDate : JsDate) : List (String × FieldValue) :=
  projectItemToFields { isInvoiced := some true, invoiceDate := some invoiceDate }

/-- Model of `ProjectItemService.getMonthString`. -/
def getMonthString (date : JsDate) : String :=
  toString date.year ++ "年" ++ padStart2 (toString date.month) ++ "月"

/-- Filtering performed by `ProjectItemService.list` (after mapping records to
items): optional client filter, optional invoiced-flag filter.  The status
filter parameter of `list` is not used by `getInvoiceGroups` and is omitted
here; pagination is modelled as returning the full collection. -/
def listFilter (items : List ProjectItem) (clientName : Option String)
    (isInvoiced : Option Bool) : List ProjectItem :=
  let afterClient :=
    match clientName with
    | some c => items.filter (fun i => i.clientName = c)
    | none => items
  match isInvoiced with
  | some b => afterClient.filter (fun i => i.isInvoiced = b)
  | none => afterClient

/-- Options of `ProjectItemService.getInvoiceGroups`. -/
structure InvoiceGroupsOptions where
  clientName : Option String := none
  year : Option Int := none
  month : Option Int := none
  onlyUnInvoiced : Option Bool := none

/-- Target month label `${year}年${String(month).padStart(2, '0')}月`. -/
def targetMonthString (y m : Int) : String :=
  toString y ++ "年" ++ padStart2 (toString m) ++ "月"

/-- Fallback year/month test on `invoiceDate` used when 請求月 is absent. -/
def invoiceDateMatch (y m : Int) (i : ProjectItem) : Bool :=
  match i.invoiceDate with
  | some d => decide (d.year = y) && decide ((d.month : Int) = m)
  | none => false

/-- Per-item year/month filter of `getInvoiceGroups`: a truthy 請求月 label is
matched by substring inclusion of the target label, otherwise the
`invoiceDate` components are compared. -/
def monthMatches (y m : Int) (i : ProjectItem) : Bool :=
  match i.invoiceMonth with
  | some s =>
    if s ≠ "" then strContains s (targetMonthString y m)
    else invoiceDateMatch y m i
  | none => invoiceDateMatch y m i

/-- Year/month filter step of `getInvoiceGroups`; it only applies when both
`year` and `month` are given and truthy (nonzero). -/
def yearMonthFilter (year month : Option Int) (items : List ProjectItem) :
    List ProjectItem :=
  match year, month with
  | some y, some m =>
    if y ≠ 0 ∧ m ≠ 0 then items.filter (monthMatches y m) else items
  | _, _ => items

/-- Grouping month of an item: its 請求月 if truthy, else the month string of
its submission date (falling back to the current date). -/
def groupMonth (now : JsDate) (i : ProjectItem) : String :=
  match i.invoiceMonth with
  | some s => if s ≠ "" then s else getMonthString (i.submissionDate.getD now)
  | none => getMonthString (i.submissionDate.getD now)

/-- The items of `getInvoiceGroups` that survive all filters (delivered
status, optional unbilled/client filters, optional year/month filter): the
eligible items. -/
def eligibleItems (items : List ProjectItem) (opts : InvoiceGroupsOptions) :
    List ProjectItem :=
  let listed := listFilter items opts.clientName
    (if opts.onlyUnInvoiced.getD false then some false else none)
  let delivered := listed.filter (fun i => i.status = "納品")
  yearMonthFilter opts.year opts.month delivered

/-- An entry of the `Map` used for grouping, before totals are computed. -/
structure RawGroup where
  clientName : String
  invoiceMonth : String
  items : List ProjectItem

/-- Insert one item into the grouping map keyed by `clientName|month`
(preserving insertion order, as a JS `Map` does). -/
def insertGrouped (i : ProjectItem) (month : String) :
    List RawGroup → List RawGroup
  | [] => [⟨i.clientName, month, [i]⟩]
  | g :: gs =>
    if g.clientName ++ "|" ++ g.invoiceMonth = i.clientName ++ "|" ++ month then
      ⟨g.clientName, g.invoiceMonth, g.items ++ [i]⟩ :: gs
    else g :: insertGrouped i month gs

/-- The grouping fold of `getInvoiceGroups`. -/
def rawGroups (now : JsDate) (elig : List ProjectItem) : List RawGroup :=
  elig.foldl (fun gs i => insertGrouped i (groupMonth now i) gs) []

/-- One result group of `getInvoiceGroups`. -/
structure InvoiceGroup where
  clientName : String
  invoiceMonth : String
  items : List ProjectItem
  totalAmount : ℚ
  itemCount : Nat

/-- Model of `ProjectItemService.getInvoiceGroups` (the pure core, applied to
the already-fetched item collection): filter to eligible items, group by
client × month, compute per-group totals and counts, and sort by month label
descending. -/
def getInvoiceGroups (items : List ProjectItem) (opts : InvoiceGroupsOptions)
    (now : JsDate) : List InvoiceGroup :=
  let result := (rawGroups now (eligibleItems items opts)).map fun g =>
    { clientName := g.clientName
      invoiceMonth := g.invoiceMonth
      items := g.items
      totalAmount := (g.items.map (·.amount)).sum
      itemCount := g.items.length }
  jsSortBy (fun a b => jsStrLe b.invoiceMonth a.invoiceMonth) result

end ProjectItemService

/-- Model of `ApiError` from `src/types/index.ts`. -/
structure ApiError where
  code : String
  message : String
deriving DecidableEq, Repr

/-- Model of `InvoiceStatus`: 下書き, 発行済み, 送付済み, 一部入金, 入金済み,
過払い, 未回収, キャンセル. -/
inductive InvoiceStatus where
  | draft | issued | sent | partiallyPaid | paid | overpaid | uncollected | cancelled
deriving DecidableEq, Repr

/-- Model of `QuoteStatus`: 下書き, 送付済み, 承認待ち, 承認済み, 失効,
キャンセル. -/
inductive QuoteStatus where
  | draft | sent | awaitingApproval | approved | expired | cancelled
deriving DecidableEq, Repr

/-- Model of `BankAccount`. -/
structure BankAccount where
  bankName : String
  branchName : String
  accountType : String
  accountNumber : String
  accountHolder : String
deriving DecidableEq, Repr

/-- Model of `QuoteItem`. -/
structure QuoteItem where
  id : String
  description : String
  quantity : ℚ
  unit : String
  unitPrice : ℚ
  amount : ℚ
  taxable : Bool
deriving DecidableEq, Repr

/-- Model of `InvoiceItem` (`taxCategory` is kept as a string). -/
structure InvoiceItem where
  id : String
  description : String
  quantity : ℚ
  unit : String
  unitPrice : ℚ
  amount : ℚ
  taxable : Bool
  taxCategory : String
deriving DecidableEq, Repr

/-- Model of `Quote`. -/
structure Quote where
  id : String
  quoteNumber : String
  projectId : String
  clientId : String
  status : QuoteStatus
  issueDate : JsDate
  validUntil : JsDate
  items : List QuoteItem
  subtotal : ℚ
  taxRate : ℚ
  taxAmount : ℚ
  totalAmount : ℚ
  notes : Option String
  createdAt : JsDate
  updatedAt : JsDate
deriving DecidableEq, Repr

/-- Model of `Invoice`. -/
structure Invoice where
  id : String
  invoiceNumber : String
  projectId : String
  quoteId : Option String
  clientId : String
  status : InvoiceStatus
  issueDate : JsDate
  dueDate : JsDate
  items : List InvoiceItem
  subtotal : ℚ
  taxRate : ℚ
  taxAmount : ℚ
  totalAmount : ℚ
  paidAmount : ℚ
  notes : Option String
  paymentTerms : Option String
  bankAccount : Option BankAccount
  createdAt : JsDate
  updatedAt : JsDate
deriving DecidableEq, Repr

/-- Sum of the amounts of the taxable items. -/
def quoteTaxableSub (items : List QuoteItem) : ℚ :=
  ((items.filter (·.taxable)).map (·.amount)).sum

/-- Sum of the amounts of the non-taxable items. -/
def quoteNonTaxableSub (items : List QuoteItem) : ℚ :=
  ((items.filter (fun i => !i.taxable)).map (·.amount)).sum

/-- Sum of the amounts of the taxable invoice items. -/
def invTaxableSub (items : List InvoiceItem) : ℚ :=
  ((items.filter (·.taxable)).map (·.amount)).sum

/-- Sum of the amounts of the non-taxable invoice items. -/
def invNonTaxableSub (items : List InvoiceItem) : ℚ :=
  ((items.filter (fun i => !i.taxable)).map (·.amount)).sum

/-- Model of `x || dflt` on an optional string (empty strings are falsy). -/
def jsOrDefault (o : Option String) (dflt : String) : String :=
  match o with
  | some s => if s ≠ "" then s else dflt
  | none => dflt

namespace QuoteService

/-- Input item of `QuoteService.create` (`Omit<QuoteItem, 'id' | 'amount'>`). -/
structure QuoteItemInput where
  description : String
  quantity : ℚ
  unit : String
  unitPrice : ℚ
  taxable : Bool
deriving DecidableEq, Repr

/-- Argument record of `QuoteService.create`. -/
structure QuoteCreateData where
  projectId : String
  clientId : String
  validUntil : JsDate
  items : List QuoteItemInput
  notes : Option String := none
  taxRate : Option ℚ := none

/-- Model of `QuoteService.create` (pure core; the generated `id` and
`quoteNumber` and the current time are passed in explicitly). -/
def create (data : QuoteCreateData) (id quoteNumber : String) (now : JsDate) :
    Quote :=
  let taxRate := data.taxRate.getD 0.1
  let items : List QuoteItem := data.items.enum.map fun p =>
    { id := id ++ "-item-" ++ toString (p.1 + 1)
      description := p.2.description
      quantity := p.2.quantity
      unit := p.2.unit
      unitPrice := p.2.unitPrice
      amount := p.2.quantity * p.2.unitPrice
      taxable := p.2.taxable }
  let subtotal := quoteTaxableSub items
  let nonTaxableAmount := quoteNonTaxableSub items
  let taxAmount := jsFloor (subtotal * taxRate)
  let totalAmount := subtotal + taxAmount + nonTaxableAmount
  { id := id
    quoteNumber := quoteNumber
    projectId := data.projectId
    clientId := data.clientId
    status := .draft
    issueDate := now
    validUntil := data.validUntil
    items := items
    subtotal := subtotal + nonTaxableAmount
    taxRate := taxRate
    taxAmount := taxAmount
    totalAmount := totalAmount
    notes := data.notes
    createdAt := now
    updatedAt := now }

/-- Model of `Partial<Quote>` as fed to `QuoteService.update`.  A property set
to `undefined` explicitly is identified with an absent property; no caller in
the repository distinguishes the two. -/
structure PartialQuote where
  id : Option String := none
  quoteNumber : Option String := none
  projectId : Option String := none
  clientId : Option String := none
  status : Option QuoteStatus := none
  issueDate : Option JsDate := none
  validUntil : Option JsDate := none
  items : Option (List QuoteItem) := none
  subtotal : Option ℚ := none
  taxRate : Option ℚ := none
  taxAmount : Option ℚ := none
  totalAmount : Option ℚ := none
  notes : Option String := none
  createdAt : Option JsDate := none
  updatedAt : Option JsDate := none

/-- Model of `QuoteService.update` on a found quote: item amounts are
recomputed when items are supplied, and subtotal/tax/total are always
recalculated; the spread `{...quote, ...data, ...}` is modelled field by
field. -/
def update (quote : Quote) (data : PartialQuote) (now : JsDate) : Quote :=
  let items :=
    match data.items with
    | some its => its.map fun item => { item with amount := item.quantity * item.unitPrice }
    | none => quote.items
  let taxRate := data.taxRate.getD quote.taxRate
  let subtotal := quoteTaxableSub items
  let nonTaxableAmount := quoteNonTaxableSub items
  let taxAmount := jsFloor (subtotal * taxRate)
  let totalAmount := subtotal + taxAmount + nonTaxableAmount
  { id := data.id.getD quote.id
    quoteNumber := data.quoteNumber.getD quote.quoteNumber
    projectId := data.projectId.getD quote.projectId
    clientId := data.clientId.getD quote.clientId
    status := data.status.getD quote.status
    issueDate := data.issueDate.getD quote.issueDate
    validUntil := data.validUntil.getD quote.validUntil
    items := items
    subtotal := subtotal + nonTaxableAmount
    taxRate := taxRate
    taxAmount := taxAmount
    totalAmount := totalAmount
    notes := match data.notes with | some s => some s | none => quote.notes
    createdAt := data.createdAt.getD quote.createdAt
    updatedAt := now }

end QuoteService

namespace InvoiceService

/-- Input item of `InvoiceService.create` (`Omit<InvoiceItem, 'id' | 'amount'>`). -/
structure InvoiceItemInput where
  description : String
  quantity : ℚ
  unit : String
  unitPrice : ℚ
  taxable : Bool
  taxCategory : String
deriving DecidableEq, Repr

/-- Argument record of `InvoiceService.create`. -/
structure InvoiceCreateData where
  projectId : String
  clientId : String
  quoteId : Option String := none
  dueDate : JsDate
  items : List InvoiceItemInput
  notes : Option String := none
  paymentTerms : Option String := none
  bankAccount : Option BankAccount := none
  taxRate : Option ℚ := none

/-- Default 振込先口座 (`DEFAULT_BANK_ACCOUNT`). -/
def DEFAULT_BANK_ACCOUNT : BankAccount :=
  { bankName := ""
    branchName := ""
    accountType := "普通"
    accountNumber := ""
    accountHolder := "" }

/-- Model of `InvoiceService.create` (pure core; generated `id`,
`invoiceNumber` and the current time passed in explicitly). -/
def create (data : InvoiceCreateData) (id invoiceNumber : String) (now : JsDate) :
    Invoice :=
  let taxRate := data.taxRate.getD 0.1
  let items : List InvoiceItem := data.items.enum.map fun p =>
    { id := id ++ "-item-" ++ toString (p.1 + 1)
      description := p.2.description
      quantity := p.2.quantity
      unit := p.2.unit
      unitPrice := p.2.unitPrice
      amount := p.2.quantity * p.2.unitPrice
      taxable := p.2.taxable
      taxCategory := p.2.taxCategory }
  let taxableAmount := invTaxableSub items
  let nonTaxableAmount := invNonTaxableSub items
  let taxAmount := jsFloor (taxableAmount * taxRate)
  let totalAmount := taxableAmount + taxAmount + nonTaxableAmount
  { id := id
    invoiceNumber := invoiceNumber
    projectId := data.projectId
    quoteId := data.quoteId
    clientId := data.clientId
    status := .draft
    issueDate := now
    dueDate := data.dueDate
    items := items
    subtotal := taxableAmount + nonTaxableAmount
    taxRate := taxRate
    taxAmount := taxAmount
    totalAmount := totalAmount
    paidAmount := 0
    notes := data.notes
    paymentTerms := some (jsOrDefault data.paymentTerms "請求書発行日より30日以内")
    bankAccount := some (data.bankAccount.getD DEFAULT_BANK_ACCOUNT)
    createdAt := now
    updatedAt := now }

/-- Model of `Partial<Invoice>` as fed to `InvoiceService.update`. -/
structure PartialInvoice where
  id : Option String := none
  invoiceNumber : Option String := none
  projectId : Option String := none
  quoteId : Option String := none
  clientId : Option String := none
  status : Option InvoiceStatus := none
  issueDate : Option JsDate := none
  dueDate : Option JsDate := none
  items : Option (List InvoiceItem) := none
  subtotal : Option ℚ := none
  taxRate : Option ℚ := none
  taxAmount : Option ℚ := none
  totalAmount : Option ℚ := none
  paidAmount : Option ℚ := none
  notes : Option String := none
  paymentTerms : Option String := none
  bankAccount : Option BankAccount := none
  createdAt : Option JsDate := none
  updatedAt : Option JsDate := none

/-- Model of `InvoiceService.update` on a found invoice: item amounts are
recomputed when items are supplied, subtotal/tax/total are always
recalculated. -/
def update (invoice : Invoice) (data : PartialInvoice) (now : JsDate) : Invoice :=
  let items :=
    match data.items with
    | some its => its.map fun item => { item with amount := item.quantity * item.unitPrice }
    | none => invoice.items
  let taxRate := data.taxRate.getD invoice.taxRate
  let taxableAmount := invTaxableSub items
  let nonTaxableAmount := invNonTaxableSub items
  let taxAmount := jsFloor (taxableAmount * taxRate)
  let totalAmount := taxableAmount + taxAmount + nonTaxableAmount
  { id := data.id.getD invoice.id
    invoiceNumber := data.invoiceNumber.getD invoice.invoiceNumber
    projectId := data.projectId.getD invoice.projectId
    quoteId := match data.quoteId with | some q => some q | none => invoice.quoteId
    clientId := data.clientId.getD invoice.clientId
    status := data.status.getD invoice.status
    issueDate := data.issueDate.getD invoice.issueDate
    dueDate := data.dueDate.getD invoice.dueDate
    items := items
    subtotal := taxableAmount + nonTaxableAmount
    taxRate := taxRate
    taxAmount := taxAmount
    totalAmount := totalAmount
    paidAmount := data.paidAmount.getD invoice.paidAmount
    notes := match data.notes with | some s => some s | none => invoice.notes
    paymentTerms := match data.paymentTerms with | some s => some s | none => invoice.paymentTerms
    bankAccount := match data.bankAccount with | some b => some b | none => invoice.bankAccount
    createdAt := data.createdAt.getD invoice.createdAt
    updatedAt := now }

/-- Model of `InvoiceService.recordPayment` on a found invoice: accumulate
`paidAmount`, derive the new status by the threshold comparison against the
stored `totalAmount`, then delegate to `update`. -/
def recordPayment (invoice : Invoice) (amount : ℚ) (now : JsDate) : Invoice :=
  let paidAmount := invoice.paidAmount + amount
  let status :=
    if paidAmount ≥ invoice.totalAmount then
      (if paidAmount > invoice.totalAmount then InvoiceStatus.overpaid
       else InvoiceStatus.paid)
    else if paidAmount > 0 then InvoiceStatus.partiallyPaid
    else invoice.status
  update invoice { paidAmount := some paidAmount, status := some status } now

end InvoiceService

/-- Tax-rate setting `FREEE_EXPORT_CONFIG.taxRate` from
`src/config/larkbase-mapping.ts`. -/
def freeeExportTaxRate : ℚ := 0.1

namespace LarkBaseInvoiceService

/-- Options of `LarkBaseInvoiceService.generateInvoice` /
`issueInvoice` (after omitting clientName/year/month). -/
structure InvoiceGenOptions where
  dueDate : JsDate
  paymentTerms : Option String := none
  bankAccount : Option BankAccount := none
  notes : Option String := none

/-- Model of the private helper `getClientPrefix`: fixed client → code table
with the generic OTH fallback. -/
def clientCodeOf (clientName : String) : String :=
  if clientName = "中村 香菜枝様" then "NKM"
  else if clientName = "株式会社ontsugi" then "ONT"
  else if clientName = "上野 優作様" then "UEN"
  else if clientName = "株式会社 マウントブラン" then "MTB"
  else "OTH"

/-- Scan for the first occurrence of the pattern `\d{4}年\d{2}月` and return
its six digits, modelling `invoiceMonth.match(/(\d{4})年(\d{2})月/)`. -/
def findYYYYMM (l : List Char) : Option String :=
  match l with
  | a :: b :: c :: d :: y :: e :: f :: m :: rest =>
    if a.isDigit && b.isDigit && c.isDigit && d.isDigit && y = '年' &&
        e.isDigit && f.isDigit && m = '月' then
      some (String.mk [a, b, c, d, e, f])
    else findYYYYMM (b :: c :: d :: y :: e :: f :: m :: rest)
  | _ => none
termination_by l.length
decreasing_by simp +arith

/-- Model of `String(x).slice(-4)`. -/
def sliceLast4 (s : String) : String :=
  String.mk (s.data.drop (s.data.length - 4))

/-- Model of the private `generateInvoiceNumber` (the time-derived sequence
is a function of the current epoch milliseconds). -/
def generateInvoiceNumber (clientName invoiceMonth : String) (nowMs : Int) :
    String :=
  let code := clientCodeOf clientName
  let monthStr := (findYYYYMM invoiceMonth.data).getD ("")
  let sequence := sliceLast4 (toString nowMs)
  "INV-" ++ code ++ "-" ++ monthStr ++ "-" ++ sequence

/-- Model of `LarkBaseInvoiceService.generateInvoice` (pure core over the
fetched item collection): group the client's uninvoiced items, look up the
requested month's group, and build a draft invoice from it.  Item amounts are
taken from the stored line items, not recomputed. -/
def generateInvoice (items : List ProjectItem) (clientName invoiceMonth : String)
    (options : InvoiceGenOptions) (now : JsDate) : Except ApiError Invoice :=
  let groups := ProjectItemService.getInvoiceGroups items
    { clientName := some clientName, onlyUnInvoiced := some true } now
  match groups.find? (fun g => g.clientName == clientName && g.invoiceMonth == invoiceMonth) with
  | none =>
    .error { code := "NOT_FOUND"
             message := "No uninvoiced items found for " ++ clientName ++ " in " ++ invoiceMonth }
  | some targetGroup =>
    let invoiceItems : List InvoiceItem := targetGroup.items.enum.map fun p =>
      { id := "item-" ++ toString (p.1 + 1)
        description := p.2.projectName ++ " - " ++ p.2.contentType
        quantity := p.2.quantity
        unit := "件"
        unitPrice := p.2.unitPrice
        amount := p.2.amount
        taxable := true
        taxCategory := "課税売上10%" }
    let subtotal := targetGroup.totalAmount
    let taxAmount := jsFloor (subtotal * freeeExportTaxRate)
    let totalAmount := subtotal + taxAmount
    .ok
      { id := "inv-" ++ toString now.time
        invoiceNumber := generateInvoiceNumber clientName invoiceMonth now.time
        projectId := clientName ++ "-" ++ invoiceMonth
        quoteId := none
        clientId := clientName
        status := .draft
        issueDate := now
        dueDate := options.dueDate
        items := invoiceItems
        subtotal := subtotal
        taxRate := freeeExportTaxRate
        taxAmount := taxAmount
        totalAmount := totalAmount
        paidAmount := 0
        notes := options.notes
        paymentTerms := some (jsOrDefault options.paymentTerms "請求書発行日より30日以内")
        bankAccount := options.bankAccount
        createdAt := now
        updatedAt := now }

/-- Model of `LarkBaseInvoiceService.issueInvoice`: generate the invoice,
re-fetch the group, mark every member item invoiced in the store (returned as
the updated item collection), and return the invoice with status 発行済み and
`issueDate` set to the mutation time. -/
def issueInvoice (items : List ProjectItem) (clientName invoiceMonth : String)
    (options : InvoiceGenOptions) (now : JsDate) :
    Except ApiError (Invoice × List ProjectItem) :=
  match generateInvoice items clientName invoiceMonth options now with
  | .error e => .error e
  | .ok invoice =>
    let groups := ProjectItemService.getInvoiceGroups items
      { clientName := some clientName, onlyUnInvoiced := some true } now
    match groups.find? (fun g => g.clientName == clientName && g.invoiceMonth == invoiceMonth) with
    | none =>
      .error { code := "NOT_FOUND"
               message := "No uninvoiced items found for " ++ clientName ++ " in " ++ invoiceMonth }
    | some targetGroup =>
      let updatedItems := items.map fun i =>
        if targetGroup.items.any (fun t => t.recordId == i.recordId) then
          { i with isInvoiced := true, invoiceDate := some now }
        else i
      .ok ({ invoice with status := .issued, issueDate := now }, updatedItems)

end LarkBaseInvoiceService

namespace FreeeExportService

/-- Model of `FreeeJournalEntry`.  Field correspondence: `transactionDate` =
取引日, `debitAccount` = 借方勘定科目, `debitSubAccount` = 借方補助科目,
`debitDepartment` = 借方部門, `debitAmount` = 借方金額, `debitTaxCategory` =
借方税区分, `creditAccount` = 貸方勘定科目, `creditSubAccount` = 貸方補助科目,
`creditDepartment` = 貸方部門, `creditAmount` = 貸方金額, `creditTaxCategory`
= 貸方税区分, `description` = 摘要, `tag` = タグ. -/
structure FreeeJournalEntry where
  transactionDate : String
  debitAccount : String
  debitSubAccount : Option String
  debitDepartment : Option String
  debitAmount : ℚ
  debitTaxCategory : String
  creditAccount : String
  creditSubAccount : Option String
  creditDepartment : Option String
  creditAmount : ℚ
  creditTaxCategory : String
  description : String
  tag : Option String
deriving DecidableEq, Repr

/-- Model of the private `formatDate` (YYYY-MM-DD). -/
def formatDate (date : JsDate) : String :=
  toString date.year ++ "-" ++ padStart2 (toString date.month) ++ "-" ++
    padStart2 (toString date.day)

/-- Sales-recognition entry for the taxable portion (debit 売掛金 for
taxable + tax, credit 売上高 for the taxable amount). -/
def taxableSalesEntry (invoice : Invoice) (taxableAmount : ℚ) : FreeeJournalEntry where
  transactionDate := formatDate invoice.issueDate
  debitAccount := "売掛金"
  debitSubAccount := some ""
  debitDepartment := some ""
  debitAmount := taxableAmount + invoice.taxAmount
  debitTaxCategory := "対象外"
  creditAccount := "売上高"
  creditSubAccount := some ""
  creditDepartment := some ""
  creditAmount := taxableAmount
  creditTaxCategory := "課売上10%"
  description := invoice.invoiceNumber ++ " 売上計上"
  tag := some invoice.projectId

/-- Consumption-tax entry (credit 仮受消費税 for the tax amount). -/
def taxEntry (invoice : Invoice) : FreeeJournalEntry where
  transactionDate := formatDate invoice.issueDate
  debitAccount := "売掛金"
  debitSubAccount := some ""
  debitDepartment := some ""
  debitAmount := 0
  debitTaxCategory := "対象外"
  creditAccount := "仮受消費税"
  creditSubAccount := some ""
  creditDepartment := some ""
  creditAmount := invoice.taxAmount
  creditTaxCategory := "対象外"
  description := invoice.invoiceNumber ++ " 消費税"
  tag := some invoice.projectId

/-- Sales-recognition entry for the non-taxable portion. -/
def nonTaxableSalesEntry (invoice : Invoice) (nonTaxableAmount : ℚ) :
    FreeeJournalEntry where
  transactionDate := formatDate invoice.issueDate
  debitAccount := "売掛金"
  debitSubAccount := some ""
  debitDepartment := some ""
  debitAmount := nonTaxableAmount
  debitTaxCategory := "対象外"
  creditAccount := "売上高"
  creditSubAccount := some ""
  creditDepartment := some ""
  creditAmount := nonTaxableAmount
  creditTaxCategory := "非売上"
  description := invoice.invoiceNumber ++ " 売上計上（非課税）"
  tag := some invoice.projectId

/-- Payment entry (debit 普通預金, credit 売掛金, both for `paidAmount`,
dated at the invoice's `updatedAt`). -/
def paymentEntry (invoice : Invoice) : FreeeJournalEntry where
  transactionDate := formatDate invoice.updatedAt
  debitAccount := "普通預金"
  debitSubAccount := some ""
  debitDepartment := some ""
  debitAmount := invoice.paidAmount
  debitTaxCategory := "対象外"
  creditAccount := "売掛金"
  creditSubAccount := some ""
  creditDepartment := some ""
  creditAmount := invoice.paidAmount
  creditTaxCategory := "対象外"
  description := invoice.invoiceNumber ++ " 入金"
  tag := some invoice.projectId

/-- Model of the private `FreeeExportService.invoiceToJournalEntries`:
sales-recognition entries only for non-draft invoices (taxable portion, tax
transfer, non-taxable portion, each guarded by positivity), then a payment
entry whenever `paidAmount > 0`. -/
def invoiceToJournalEntries (invoice : Invoice) : List FreeeJournalEntry :=
  let taxableAmount := invTaxableSub invoice.items
  let nonTaxableAmount := invNonTaxableSub invoice.items
  let salesEntries :=
    if invoice.status ≠ .draft then
      (if taxableAmount > 0 then
        taxableSalesEntry invoice taxableAmount ::
          (if invoice.taxAmount > 0 then [taxEntry invoice] else [])
      else []) ++
      (if nonTaxableAmount > 0 then [nonTaxableSalesEntry invoice nonTaxableAmount] else [])
    else []
  salesEntries ++ (if invoice.paidAmount > 0 then [paymentEntry invoice] else [])

/-- Rendering of a JS number for a CSV cell (`String(x)`); integers render as
in JS, non-integer rationals render as `num/den` (a notation difference only;
cell contents are irrelevant to the shape properties proved below). -/
def jsNumToString (q : ℚ) : String :=
  if q.den = 1 then toString q.num else toString q

/-- Model of `x || ''` on an optional string (the empty-string case is
unobservable). -/
def orEmpty (o : Option String) : String := o.getD ("")

/-- Model of the private `journalEntryToRow`: the fixed 13-cell row. -/
def journalEntryToRow (entry : FreeeJournalEntry) : List String :=
  [entry.transactionDate,
   entry.debitAccount,
   orEmpty entry.debitSubAccount,
   orEmpty entry.debitDepartment,
   jsNumToString entry.debitAmount,
   entry.debitTaxCategory,
   entry.creditAccount,
   orEmpty entry.creditSubAccount,
   orEmpty entry.creditDepartment,
   jsNumToString entry.creditAmount,
   entry.creditTaxCategory,
   entry.description,
   orEmpty entry.tag]

/-- The fixed freee CSV header row (`FREEE_CSV_HEADERS`). -/
def FREEE_CSV_HEADERS : List String :=
  ["取引日", "借方勘定科目", "借方補助科目", "借方部門", "借方金額",
   "借方税区分", "貸方勘定科目", "貸方補助科目", "貸方部門", "貸方金額",
   "貸方税区分", "摘要", "タグ"]

/-- Double every quote character (`value.replace(/"/g, '""')`). -/
def doubledQuotes (l : List Char) : List Char :=
  l.flatMap fun c => if c = '"' then ['"', '"'] else [c]

/-- Character-level core of `escapeCSV`. -/
def escChars (l : List Char) : List Char :=
  if l.contains ',' || l.contains '"' || l.contains '\n' then
    '"' :: (doubledQuotes l ++ ['"'])
  else l

/-- Model of the private `escapeCSV`: fields containing a comma, quote or
newline are wrapped in quotes with internal quotes doubled. -/
def escapeCSV (value : String) : String := String.mk (escChars value.data)

/-- Model of `Array.prototype.join(sep)` at the character level. -/
def joinChars (sep : Char) : List (List Char) → List Char
  | [] => []
  | [f] => f
  | f :: rest => f ++ sep :: joinChars sep rest

/-- Model of `Partial<FreeeExportOptions>`. -/
structure ExportOptions where
  startDate : Option JsDate := none
  endDate : Option JsDate := none
  includeUnpaid : Option Bool := none

/-- Invoice filtering of `exportToCSV`: issue-date window, and paid-only
statuses when `includeUnpaid` is false. -/
def exportFilter (invoices : List Invoice) (o : ExportOptions) : List Invoice :=
  let afterStart :=
    match o.startDate with
    | some s => invoices.filter (fun inv => decide (s.time ≤ inv.issueDate.time))
    | none => invoices
  let afterEnd :=
    match o.endDate with
    | some e => afterStart.filter (fun inv => decide (inv.issueDate.time ≤ e.time))
    | none => afterStart
  if o.includeUnpaid.getD true then afterEnd
  else afterEnd.filter (fun inv =>
    decide (inv.status = InvoiceStatus.paid) || decide (inv.status = InvoiceStatus.overpaid))

/-- All journal entries of the filtered invoices, in push order, then sorted
by transaction date (`localeCompare` ascending). -/
def sortedEntries (invoices : List Invoice) (o : ExportOptions) :
    List FreeeJournalEntry :=
  jsSortBy (fun a b => jsStrLe a.transactionDate b.transactionDate)
    (((exportFilter invoices o).map invoiceToJournalEntries).flatten)

/-- The row list produced by `exportToCSV`: the header row followed by one
row per journal entry. -/
def csvRows (invoices : List Invoice) (o : ExportOptions) : List (List String) :=
  FREEE_CSV_HEADERS :: (sortedEntries invoices o).map journalEntryToRow

/-- One emitted CSV line: `row.map(escapeCSV).join(',')`. -/
def csvLine (row : List String) : String :=
  String.mk (joinChars ',' (row.map fun s => escChars s.data))

/-- The full CSV text of `exportToCSV`: lines joined with a newline. -/
def exportToCSVText (invoices : List Invoice) (o : ExportOptions) : String :=
  String.mk (joinChars '\n' ((csvRows invoices o).map fun row => (csvLine row).data))

end FreeeExportService

/-!
Specification-side CSV splitter.  The CSV round-trip property of the spec
speaks of splitting an emitted row while "respecting quoting rules" (a field
containing a comma, quote, or newline is wrapped in quotes with internal
quotes doubled); this parser is written from those words, not from the
repository, and is compared with the repository's emitter below.
-/

/-- RFC4180-style field splitter over the characters of one emitted row:
`inQuotes` tracks whether the scanner is inside a quoted section, `acc` holds
the current field's characters in reverse. -/
def splitCSVAux (inQuotes : Bool) (acc : List Char) : List Char → List (List Char)
  | [] => [acc.reverse]
  | c :: rest =>
    if inQuotes then
      if c = '"' then
        match rest with
        | '"' :: rest2 => splitCSVAux true ('"' :: acc) rest2
        | [] => [acc.reverse]
        | c2 :: rest2 => splitCSVAux false acc (c2 :: rest2)
      else splitCSVAux true (c :: acc) rest
    else
      if c = ',' then acc.reverse :: splitCSVAux false [] rest
      else if c = '"' then splitCSVAux true acc rest
      else splitCSVAux false (c :: acc) rest
termination_by l => l.length
decreasing_by all_goals simp +arith

/-- Split one CSV row into its fields, respecting the quoting rules. -/
def splitCSV (s : String) : List String :=
  (splitCSVAux false [] s.data).map String.mk

/-- Pricing invariant of a priced invoice document, as the spec states it:
subtotal is the taxable plus the non-taxable item sums, taxAmount is the
floor of (taxable subtotal × tax rate), and totalAmount is subtotal plus
taxAmount. -/
def invoiceDocConsistent (inv : Invoice) : Prop :=
  inv.subtotal = invTaxableSub inv.items + invNonTaxableSub inv.items ∧
  inv.taxAmount = ((⌊invTaxableSub inv.items * inv.taxRate⌋ : ℤ) : ℚ) ∧
  inv.totalAmount = inv.subtotal + inv.taxAmount

/-- Pricing invariant of a priced quote document. -/
def quoteDocConsistent (q : Quote) : Prop :=
  q.subtotal = quoteTaxableSub q.items + quoteNonTaxableSub q.items ∧
  q.taxAmount = ((⌊quoteTaxableSub q.items * q.taxRate⌋ : ℤ) : ℚ) ∧
  q.totalAmount = q.subtotal + q.taxAmount

/-- Item-amount recomputation performed by `InvoiceService.update`. -/
def invReprice (l : List InvoiceItem) : List InvoiceItem :=
  l.map fun it => { it with amount := it.quantity * it.unitPrice }

/-- Item-amount recomputation performed by `QuoteService.update`. -/
def quoteReprice (l : List QuoteItem) : List QuoteItem :=
  l.map fun it => { it with amount := it.quantity * it.unitPrice }

/-!
Concrete sample data used by the closed witness and counterexample theorems.
-/

/-- Epoch date (1970-01-01, UTC). -/
def date0 : JsDate := ⟨0, 1970, 1, 1⟩

/-- Generation options with the minimum required data. -/
def genOpts0 : LarkBaseInvoiceService.InvoiceGenOptions := { dueDate := date0 }

/-- A delivered, unbilled line item whose stored 金額 (5) disagrees with
数量 × 単価 (2 × 10 = 20), as the remote store can deliver. -/
def badAmountItem : ProjectItem where
  recordId := "rec1"
  projectName := "P"
  contentType := "編集"
  quantity := 2
  unitPrice := 10
  amount := 5
  scheduledDate := none
  submissionDate := none
  status := "納品"
  isInvoiced := false
  clientName := "株式会社ontsugi"
  notes := none
  invoiceDate := none
  invoiceMonth := some "2025年01月"
  createdAt := none
  updatedAt := none

/-- A delivered, unbilled line item satisfying the amount invariant. -/
def goodAmountItem : ProjectItem where
  recordId := "rec2"
  projectName := "Q"
  contentType := "編集"
  quantity := 2
  unitPrice := 10000
  amount := 20000
  scheduledDate := none
  submissionDate := none
  status := "納品"
  isInvoiced := false
  clientName := "株式会社ontsugi"
  notes := none
  invoiceDate := none
  invoiceMonth := some "2025年01月"
  createdAt := none
  updatedAt := none

/-- A remote record whose 金額 field (5) disagrees with 数量 × 単価 (20). -/
def badAmountRecord : LarkBaseRecord where
  record_id := "rec1"
  fields := [(("数量" : String), FieldValue.num 2),
             (("単価" : String), FieldValue.num 10),
             (("金額" : String), FieldValue.num 5)]
  created_time := none
  last_modified_time := none

/-- Invoice-creation data with an empty item list (yielding a zero-total
draft invoice). -/
def emptyCreateData : InvoiceService.InvoiceCreateData where
  projectId := "project-1"
  clientId := "client-1"
  dueDate := date0
  items := []

/-- The source test fixture: two taxable items, 2 × 10000 and 1 × 5000. -/
def fixtureCreateData : InvoiceService.InvoiceCreateData where
  projectId := "project-1"
  clientId := "client-1"
  dueDate := date0
  items :=
    [{ description := "サービスA", quantity := 2, unit := "件",
       unitPrice := 10000, taxable := true, taxCategory := "課税売上10%" },
     { description := "サービスB", quantity := 1, unit := "式",
       unitPrice := 5000, taxable := true, taxCategory := "課税売上10%" }]

/-- A single taxable 15-yen item (the fractional-yen tax edge case). -/
def yen15CreateData : InvoiceService.InvoiceCreateData where
  projectId := "project-1"
  clientId := "client-1"
  dueDate := date0
  items :=
    [{ description := "テスト", quantity := 1, unit := "式",
       unitPrice := 15, taxable := true, taxCategory := "課税売上10%" }]

/-- The invoice produced by `generateInvoice` from the single-item group of
`goodAmountItem` at the epoch date, written out in full. -/
def sampleGeneratedInvoice : Invoice where
  id := "inv-0"
  invoiceNumber := "INV-ONT-202501-0"
  projectId := "株式会社ontsugi-2025年01月"
  quoteId := none
  clientId := "株式会社ontsugi"
  status := .draft
  issueDate := date0
  dueDate := date0
  items := [{ id := "item-1", description := "Q - 編集", quantity := 2, unit := "件",
              unitPrice := 10000, amount := 20000, taxable := true,
              taxCategory := "課税売上10%" }]
  subtotal := 20000
  taxRate := 0.1
  taxAmount := 2000
  totalAmount := 22000
  paidAmount := 0
  notes := none
  paymentTerms := some "請求書発行日より30日以内"
  bankAccount := none
  createdAt := date0
  updatedAt := date0

/-- A draft invoice with a positive paid amount (and no items). -/
def draftPaidInvoice : Invoice where
  id := "invoice-1"
  invoiceNumber := "INV-202501-0001"
  projectId := "project-1"
  quoteId := none
  clientId := "client-1"
  status := .draft
  issueDate := date0
  dueDate := date0
  items := []
  subtotal := 0
  taxRate := 0.1
  taxAmount := 0
  totalAmount := 0
  paidAmount := 5000
  notes := none
  paymentTerms := none
  bankAccount := none
  createdAt := date0
  updatedAt := date0

/-!
Theorems.
-/

/-- Inserting into a sorted list yields a permutation of consing. -/
theorem insertSorted_perm (le : α → α → Bool) (a : α) (l : List α) :
    List.Perm (insertSorted le a l) (a :: l) := by
  induction l with
  | nil => exact List.Perm.refl _
  | cons b t ih =>
    simp only [insertSorted]
    split
    · exact List.Perm.refl _
    · exact (List.Perm.cons b ih).trans (List.Perm.swap a b t)

/-- The modelled `Array.prototype.sort` returns a permutation of its input. -/
theorem jsSortBy_perm (le : α → α → Bool) (l : List α) :
    List.Perm (jsSortBy le l) l := by
  induction l with
  | nil => exact List.Perm.refl _
  | cons a t ih => exact (insertSorted_perm le a _).trans (List.Perm.cons a ih)

/-- The modelled `Math.floor` agrees with the mathematical floor. -/
theorem jsFloor_eq_intFloor (q : ℚ) : jsFloor q = ((⌊q⌋ : ℤ) : ℚ) := by
  rw [jsFloor, Rat.floor_def', ← Rat.floor_def]

/-- The modelled `Math.floor` never exceeds its argument. -/
theorem jsFloor_le (q : ℚ) : jsFloor q ≤ q := by
  rw [jsFloor_eq_intFloor]
  exact Int.floor_le q

/-- Recomputing invoice item amounts is idempotent. -/
theorem invoiceRepriceIdem (l : List InvoiceItem) :
    invReprice (invReprice l) = invReprice l := by
  unfold invReprice
  rw [List.map_map]
  rfl

/-- Recomputing quote item amounts is idempotent. -/
theorem quoteRepriceIdem (l : List QuoteItem) :
    quoteReprice (quoteReprice l) = quoteReprice l := by
  unfold quoteReprice
  rw [List.map_map]
  rfl

/-- C10: for every invoice date, the update payload sent by `markAsInvoiced`
contains exactly the 請求済 flag (set to true) and the 請求日 field (the
date's epoch milliseconds); every other line-item field is absent from the
payload and therefore left unchanged by the record-store update. -/
theorem markAsInvoiced_payload_exact (d : JsDate) :
    ProjectItemService.markAsInvoicedFields d =
      [(("請求済" : String), FieldValue.boolVal true),
       (("請求日" : String), FieldValue.num (d.time : ℚ))] := rfl

/-- C8 (amended): the repository mapping copies `amount` from the record's
金額 field (coerced like any number field) instead of recomputing it, so the
invariant `amount = quantity * unitPrice` holds for a mapped item exactly
when the record's 金額 field equals the product of its 数量 and 単価 fields
(as maintained by the remote store's formula field). -/
theorem recordToProjectItem_amount_semantics (r : LarkBaseRecord) :
    (ProjectItemService.recordToProjectItem r).amount
        = ProjectItemService.getNumberValue r.fields ("金額") ∧
    ((ProjectItemService.recordToProjectItem r).amount =
        (ProjectItemService.recordToProjectItem r).quantity *
          (ProjectItemService.recordToProjectItem r).unitPrice ↔
      ProjectItemService.getNumberValue r.fields ("金額") =
        ProjectItemService.getNumberValue r.fields ("数量") *
          ProjectItemService.getNumberValue r.fields ("単価")) :=
  ⟨rfl, Iff.rfl⟩

/-- C8 (counterexample): a record whose 金額 field is 5 while 数量 × 単価 is
2 × 10 maps to a line item violating `amount = quantity * unitPrice`. -/
theorem recordToProjectItem_amount_counterexample :
    (ProjectItemService.recordToProjectItem badAmountRecord).amount ≠
      (ProjectItemService.recordToProjectItem badAmountRecord).quantity *
        (ProjectItemService.recordToProjectItem badAmountRecord).unitPrice := by
  norm_num [ProjectItemService.recordToProjectItem,
    ProjectItemService.getNumberValue, badAmountRecord, List.lookup,
    show (("金額" : String) == "数量") = false from rfl,
    show (("金額" : String) == "単価") = false from rfl,
    show (("金額" : String) == "金額") = true from rfl,
    show (("単価" : String) == "数量") = false from rfl,
    show (("単価" : String) == "単価") = true from rfl,
    show (("数量" : String) == "数量") = true from rfl]

/-- C5: re-pricing an already-priced document with the same items and tax
rate (an `update` with unchanged inputs) reproduces identical item amounts,
subtotal, taxAmount and totalAmount, for both `InvoiceService.update` and
`QuoteService.update`. -/
theorem pricing_idempotent :
    ∀ (inv : Invoice) (its : List InvoiceItem) (r : ℚ) (d1 d2 : JsDate)
      (q : Quote) (qits : List QuoteItem),
      (let inv1 := InvoiceService.update inv { items := some its, taxRate := some r } d1
       let inv2 := InvoiceService.update inv1
         { items := some inv1.items, taxRate := some r } d2
       inv2.items = inv1.items ∧ inv2.subtotal = inv1.subtotal ∧
         inv2.taxAmount = inv1.taxAmount ∧ inv2.totalAmount = inv1.totalAmount) ∧
      (let q1 := QuoteService.update q { items := some qits, taxRate := some r } d1
       let q2 := QuoteService.update q1
         { items := some q1.items, taxRate := some r } d2
       q2.items = q1.items ∧ q2.subtotal = q1.subtotal ∧
         q2.taxAmount = q1.taxAmount ∧ q2.totalAmount = q1.totalAmount) := by
  intro inv its r d1 d2 q qits
  constructor
  · refine ⟨?_, ?_, ?_, ?_⟩
    · show invReprice (invReprice its) = invReprice its
      exact invoiceRepriceIdem its
    · show invTaxableSub (invReprice (invReprice its)) +
          invNonTaxableSub (invReprice (invReprice its)) =
          invTaxableSub (invReprice its) + invNonTaxableSub (invReprice its)
      rw [invoiceRepriceIdem its]
    · show jsFloor (invTaxableSub (invReprice (invReprice its)) * r) =
          jsFloor (invTaxableSub (invReprice its) * r)
      rw [invoiceRepriceIdem its]
    · show invTaxableSub (invReprice (invReprice its)) +
          jsFloor (invTaxableSub (invReprice (invReprice its)) * r) +
          invNonTaxableSub (invReprice (invReprice its)) =
          invTaxableSub (invReprice its) +
          jsFloor (invTaxableSub (invReprice its) * r) +
          invNonTaxableSub (invReprice its)
      rw [invoiceRepriceIdem its]
  · refine ⟨?_, ?_, ?_, ?_⟩
    · show quoteReprice (quoteReprice qits) = quoteReprice qits
      exact quoteRepriceIdem qits
    · show quoteTaxableSub (quoteReprice (quoteReprice qits)) +
          quoteNonTaxableSub (quoteReprice (quoteReprice qits)) =
          quoteTaxableSub (quoteReprice qits) + quoteNonTaxableSub (quoteReprice qits)
      rw [quoteRepriceIdem qits]
    · show jsFloor (quoteTaxableSub (quoteReprice (quoteReprice qits)) * r) =
          jsFloor (quoteTaxableSub (quoteReprice qits) * r)
      rw [quoteRepriceIdem qits]
    · show quoteTaxableSub (quoteReprice (quoteReprice qits)) +
          jsFloor (quoteTaxableSub (quoteReprice (quoteReprice qits)) * r) +
          quoteNonTaxableSub (quoteReprice (quoteReprice qits)) =
          quoteTaxableSub (quoteReprice qits) +
          jsFloor (quoteTaxableSub (quoteReprice qits) * r) +
          quoteNonTaxableSub (quoteReprice qits)
      rw [quoteRepriceIdem qits]

/-- C3 (amended): recordPayment accumulates the payment into paidAmount and
sets the status by the threshold rule against the stored totalAmount:
strictly greater gives 過払い, equal gives 入金済み (never 一部入金 or
過払い), strictly between 0 and the total gives 一部入金, and a cumulative
paid amount of 0 leaves the status unchanged whenever the total is positive
(for a zero or negative total the first two thresholds fire instead). -/
theorem recordPayment_thresholds (inv : Invoice) (amount : ℚ) (now : JsDate) :
    (InvoiceService.recordPayment inv amount now).paidAmount
        = inv.paidAmount + amount ∧
    (inv.paidAmount + amount > inv.totalAmount →
      (InvoiceService.recordPayment inv amount now).status = InvoiceStatus.overpaid) ∧
    (inv.paidAmount + amount = inv.totalAmount →
      (InvoiceService.recordPayment inv amount now).status = InvoiceStatus.paid) ∧
    (0 < inv.paidAmount + amount ∧ inv.paidAmount + amount < inv.totalAmount →
      (InvoiceService.recordPayment inv amount now).status = InvoiceStatus.partiallyPaid) ∧
    (inv.paidAmount + amount = 0 ∧ 0 < inv.totalAmount →
      (InvoiceService.recordPayment inv amount now).status = inv.status) := by
  have hst : (InvoiceService.recordPayment inv amount now).status =
      (if inv.paidAmount + amount ≥ inv.totalAmount then
        (if inv.paidAmount + amount > inv.totalAmount then InvoiceStatus.overpaid
         else InvoiceStatus.paid)
       else if inv.paidAmount + amount > 0 then InvoiceStatus.partiallyPaid
       else inv.status) := rfl
  refine ⟨rfl, ?_, ?_, ?_, ?_⟩
  · intro h
    rw [hst]
    split_ifs with h1 h2 _h3 <;> first | rfl | linarith
  · intro h
    rw [hst]
    split_ifs with h1 h2 _h3 <;> first | rfl | linarith
  · intro h
    obtain ⟨h0, hT⟩ := h
    rw [hst]
    split_ifs with h1 h2 _h3 <;> first | rfl | linarith
  · intro h
    obtain ⟨h0, hT⟩ := h
    rw [hst]
    split_ifs with h1 h2 _h3 <;> first | rfl | linarith

/-- C3 (witness): on the sample draft invoice with totalAmount 0 and
paidAmount 5000, recording a further 1000 yields paidAmount 6000 and status
過払い, by the threshold theorem. -/
theorem recordPayment_thresholds_witness :
    (InvoiceService.recordPayment draftPaidInvoice 1000 date0).paidAmount = 6000 ∧
    (InvoiceService.recordPayment draftPaidInvoice 1000 date0).status
        = InvoiceStatus.overpaid := by
  refine ⟨?_, ?_⟩
  · rw [(recordPayment_thresholds draftPaidInvoice 1000 date0).1]
    norm_num [draftPaidInvoice]
  · exact (recordPayment_thresholds draftPaidInvoice 1000 date0).2.1
      (by norm_num [draftPaidInvoice])

/-- C3 (counterexample): on a freshly created invoice with no items (so
totalAmount 0, status 下書き), recording a payment of 0 keeps the cumulative
paidAmount at 0 yet flips the status to 入金済み, contradicting the claim's
"paidAmount == 0 leaves the status unchanged" clause. -/
theorem recordPayment_zero_counterexample :
    (InvoiceService.create emptyCreateData "invoice-1" "INV-202501-0001" date0).status
        = InvoiceStatus.draft ∧
    (InvoiceService.create emptyCreateData "invoice-1" "INV-202501-0001" date0).paidAmount
        + 0 = 0 ∧
    (InvoiceService.recordPayment
        (InvoiceService.create emptyCreateData "invoice-1" "INV-202501-0001" date0)
        0 date0).status = InvoiceStatus.paid := by
  refine ⟨rfl, by norm_num [InvoiceService.create], ?_⟩
  have h := (recordPayment_thresholds
    (InvoiceService.create emptyCreateData "invoice-1" "INV-202501-0001" date0) 0 date0).2.2.1
  apply h
  norm_num [InvoiceService.create, emptyCreateData, invTaxableSub, invNonTaxableSub,
    jsFloor_eq_intFloor]

/-- C4: the tax amount computed by `InvoiceService.create` and
`QuoteService.create` equals the floor of (taxable subtotal × tax rate) and
never exceeds it (truncation, never rounding up); in particular the fixture
items summing to 25000 at rate 0.1 yield 2500, and a single 15-yen taxable
item at rate 0.1 yields 1, not 2. -/
theorem tax_floor_never_rounds_up :
    (∀ (data : InvoiceService.InvoiceCreateData) (id num : String) (now : JsDate),
      (InvoiceService.create data id num now).taxAmount =
        ((⌊invTaxableSub (InvoiceService.create data id num now).items *
            (InvoiceService.create data id num now).taxRate⌋ : ℤ) : ℚ) ∧
      (InvoiceService.create data id num now).taxAmount ≤
        invTaxableSub (InvoiceService.create data id num now).items *
          (InvoiceService.create data id num now).taxRate) ∧
    (∀ (data : QuoteService.QuoteCreateData) (id num : String) (now : JsDate),
      (QuoteService.create data id num now).taxAmount =
        ((⌊quoteTaxableSub (QuoteService.create data id num now).items *
            (QuoteService.create data id num now).taxRate⌋ : ℤ) : ℚ) ∧
      (QuoteService.create data id num now).taxAmount ≤
        quoteTaxableSub (QuoteService.create data id num now).items *
          (QuoteService.create data id num now).taxRate) ∧
    invTaxableSub (InvoiceService.create fixtureCreateData "inv-1" "INV-1" date0).items
        = 25000 ∧
    (InvoiceService.create fixtureCreateData "inv-1" "INV-1" date0).taxAmount = 2500 ∧
    invTaxableSub (InvoiceService.create yen15CreateData "inv-1" "INV-1" date0).items
        = 15 ∧
    (InvoiceService.create yen15CreateData "inv-1" "INV-1" date0).taxAmount = 1 := by
  refine ⟨?_, ?_, ?_, ?_, ?_, ?_⟩
  · intro data id num now
    exact ⟨jsFloor_eq_intFloor _, jsFloor_le _⟩
  · intro data id num now
    exact ⟨jsFloor_eq_intFloor _, jsFloor_le _⟩
  · norm_num [InvoiceService.create, fixtureCreateData, invTaxableSub,
      List.enum, List.enumFrom, List.filter, List.map]
  · norm_num [InvoiceService.create, fixtureCreateData, invTaxableSub,
      List.enum, List.enumFrom, List.filter, List.map, jsFloor_eq_intFloor]
  · norm_num [InvoiceService.create, yen15CreateData, invTaxableSub,
      List.enum, List.enumFrom, List.filter, List.map]
  · norm_num [InvoiceService.create, yen15CreateData, invTaxableSub,
      List.enum, List.enumFrom, List.filter, List.map, jsFloor_eq_intFloor]

/-- C6: a Draft invoice yields no sales-recognition journal entries (its
entry list is exactly the payment entry when paidAmount is positive, empty
otherwise); and for every invoice with positive paidAmount the entries
contain exactly one payment entry — debiting 普通預金 and crediting 売掛金,
both for paidAmount, dated at the invoice's last-updated time — regardless of
draft status. -/
theorem journal_entries_draft_and_payment (inv : Invoice) :
    (inv.status = InvoiceStatus.draft →
      FreeeExportService.invoiceToJournalEntries inv =
        if 0 < inv.paidAmount then [FreeeExportService.paymentEntry inv] else []) ∧
    (0 < inv.paidAmount →
      (FreeeExportService.invoiceToJournalEntries inv).filter
          (fun e => e.debitAccount == "普通預金") =
        [FreeeExportService.paymentEntry inv] ∧
      FreeeExportService.paymentEntry inv =
        { transactionDate := FreeeExportService.formatDate inv.updatedAt
          debitAccount := "普通預金"
          debitSubAccount := some ""
          debitDepartment := some ""
          debitAmount := inv.paidAmount
          debitTaxCategory := "対象外"
          creditAccount := "売掛金"
          creditSubAccount := some ""
          creditDepartment := some ""
          creditAmount := inv.paidAmount
          creditTaxCategory := "対象外"
          description := inv.invoiceNumber ++ " 入金"
          tag := some inv.projectId }) := by
  constructor
  · intro h
    simp only [FreeeExportService.invoiceToJournalEntries, h]
    simp
  · intro h
    refine ⟨?_, rfl⟩
    simp only [FreeeExportService.invoiceToJournalEntries, if_pos h]
    rw [List.filter_append]
    have hpay : List.filter (fun e => e.debitAccount == "普通預金")
        [FreeeExportService.paymentEntry inv] = [FreeeExportService.paymentEntry inv] := by
      simp [FreeeExportService.paymentEntry]
    rw [hpay]
    have hsales : List.filter (fun e => e.debitAccount == "普通預金")
        (if inv.status ≠ InvoiceStatus.draft then
          (if invTaxableSub inv.items > 0 then
            FreeeExportService.taxableSalesEntry inv (invTaxableSub inv.items) ::
              (if inv.taxAmount > 0 then [FreeeExportService.taxEntry inv] else [])
          else []) ++
          (if invNonTaxableSub inv.items > 0 then
            [FreeeExportService.nonTaxableSalesEntry inv (invNonTaxableSub inv.items)]
          else [])
        else []) = [] := by
      split_ifs <;>
        simp [FreeeExportService.taxableSalesEntry, FreeeExportService.taxEntry,
          FreeeExportService.nonTaxableSalesEntry,
          show (("売掛金" : String) == "普通預金") = false from rfl]
    rw [hsales, List.nil_append]

/-- C6 (witness): the sample draft invoice with paidAmount 5000 produces
exactly its payment entry and no sales-recognition entries. -/
theorem journal_entries_draft_and_payment_witness :
    FreeeExportService.invoiceToJournalEntries draftPaidInvoice =
      [FreeeExportService.paymentEntry draftPaidInvoice] ∧
    (FreeeExportService.invoiceToJournalEntries draftPaidInvoice).filter
        (fun e => e.debitAccount == "普通預金") =
      [FreeeExportService.paymentEntry draftPaidInvoice] := by
  have h := journal_entries_draft_and_payment draftPaidInvoice
  have hdraft : draftPaidInvoice.status = InvoiceStatus.draft := rfl
  have hpaid : (0 : ℚ) < draftPaidInvoice.paidAmount := by
    norm_num [draftPaidInvoice]
  refine ⟨?_, (h.2 hpaid).1⟩
  rw [h.1 hdraft, if_pos hpaid]

/-- C9: when no eligible group of delivered, unbilled items of the client
matches the requested month label, `generateInvoice` fails with the
NOT_FOUND error (and returns no invoice), and `issueInvoice` propagates the
same failure. -/
theorem generateInvoice_not_found
    (pitems : List ProjectItem) (c m : String)
    (o : LarkBaseInvoiceService.InvoiceGenOptions) (now : JsDate)
    (h : ∀ g ∈ ProjectItemService.getInvoiceGroups pitems
        { clientName := some c, onlyUnInvoiced := some true } now,
      ¬(g.clientName = c ∧ g.invoiceMonth = m)) :
    LarkBaseInvoiceService.generateInvoice pitems c m o now =
      .error { code := "NOT_FOUND"
               message := "No uninvoiced items found for " ++ c ++ " in " ++ m } ∧
    LarkBaseInvoiceService.issueInvoice pitems c m o now =
      .error { code := "NOT_FOUND"
               message := "No uninvoiced items found for " ++ c ++ " in " ++ m } := by
  have hfind : (ProjectItemService.getInvoiceGroups pitems
      { clientName := some c, onlyUnInvoiced := some true } now).find?
        (fun g => g.clientName == c && g.invoiceMonth == m) = none := by
    rw [List.find?_eq_none]
    intro g hg
    have hng := h g hg
    simp only [Bool.and_eq_true, beq_iff_eq, not_and]
    intro hc hm
    exact hng ⟨hc, hm⟩
  constructor
  · simp [LarkBaseInvoiceService.generateInvoice, hfind]
  · simp [LarkBaseInvoiceService.issueInvoice,
      LarkBaseInvoiceService.generateInvoice, hfind]

/-- C9 (witness): with an empty item collection there is no eligible group,
so generating or issuing an invoice for any client and month fails with
NOT_FOUND. -/
theorem generateInvoice_not_found_witness :
    LarkBaseInvoiceService.generateInvoice [] ("株式会社ontsugi") ("2025年01月")
        genOpts0 date0 =
      .error { code := "NOT_FOUND"
               message := "No uninvoiced items found for " ++ "株式会社ontsugi" ++
                 " in " ++ "2025年01月" } ∧
    LarkBaseInvoiceService.issueInvoice [] ("株式会社ontsugi") ("2025年01月")
        genOpts0 date0 =
      .error { code := "NOT_FOUND"
               message := "No uninvoiced items found for " ++ "株式会社ontsugi" ++
                 " in " ++ "2025年01月" } :=
  generateInvoice_not_found [] ("株式会社ontsugi") ("2025年01月") genOpts0 date0
    (by
      intro g hg
      simp [ProjectItemService.getInvoiceGroups, ProjectItemService.eligibleItems,
        ProjectItemService.listFilter, ProjectItemService.yearMonthFilter,
        ProjectItemService.rawGroups, jsSortBy] at hg)

/-- Inserting an item into the grouping map adds exactly that item to the
multiset of grouped items. -/
theorem insertGrouped_flatMap (i : ProjectItem) (m : String) (gs : List ProjectItemService.RawGroup) :
    List.Perm ((ProjectItemService.insertGrouped i m gs).flatMap (·.items))
      (i :: gs.flatMap (·.items)) := by
  induction gs with
  | nil => simp [ProjectItemService.insertGrouped]
  | cons g t ih =>
    simp only [ProjectItemService.insertGrouped]
    split_ifs with hk
    · simp only [List.flatMap_cons]
      have harr : (g.items ++ [i]) ++ t.flatMap (·.items) =
          g.items ++ (i :: t.flatMap (·.items)) := by simp
      rw [harr]
      exact List.perm_middle
    · simp only [List.flatMap_cons]
      exact (List.Perm.append_left g.items ih).trans List.perm_middle

/-- The grouping fold partitions exactly the folded items. -/
theorem foldl_insertGrouped_flatMap (now : JsDate) :
    ∀ (l : List ProjectItem) (gs : List ProjectItemService.RawGroup),
      List.Perm
        ((l.foldl (fun gs i =>
            ProjectItemService.insertGrouped i (ProjectItemService.groupMonth now i) gs) gs).flatMap
          (·.items))
        (gs.flatMap (·.items) ++ l) := by
  intro l
  induction l with
  | nil => intro gs; simp
  | cons i t ih =>
    intro gs
    have h1 := ih (ProjectItemService.insertGrouped i (ProjectItemService.groupMonth now i) gs)
    have h2 := List.Perm.append_right t
      (insertGrouped_flatMap i (ProjectItemService.groupMonth now i) gs)
    have h3 : List.Perm ((i :: gs.flatMap (·.items)) ++ t)
        (gs.flatMap (·.items) ++ i :: t) := by
      simp only [List.cons_append]
      exact List.perm_middle.symm
    simpa using (h1.trans (h2.trans h3))

/-- The raw groups of the eligible items partition exactly those items. -/
theorem rawGroups_flatMap_perm (now : JsDate) (l : List ProjectItem) :
    List.Perm ((ProjectItemService.rawGroups now l).flatMap (·.items)) l := by
  simpa [ProjectItemService.rawGroups] using foldl_insertGrouped_flatMap now l []

/-- The result groups of `getInvoiceGroups` carry the same item multiset as
the raw groups. -/
theorem getInvoiceGroups_flatMap_perm (items : List ProjectItem)
    (opts : ProjectItemService.InvoiceGroupsOptions) (now : JsDate) :
    List.Perm ((ProjectItemService.getInvoiceGroups items opts now).flatMap (·.items))
      (ProjectItemService.eligibleItems items opts) := by
  have hsort := (jsSortBy_perm
    (fun a b : ProjectItemService.InvoiceGroup => jsStrLe b.invoiceMonth a.invoiceMonth)
    ((ProjectItemService.rawGroups now (ProjectItemService.eligibleItems items opts)).map fun g =>
      { clientName := g.clientName
        invoiceMonth := g.invoiceMonth
        items := g.items
        totalAmount := (g.items.map (·.amount)).sum
        itemCount := g.items.length })).flatMap_right (·.items)
  have hmap : (((ProjectItemService.rawGroups now (ProjectItemService.eligibleItems items opts)).map fun g =>
      ({ clientName := g.clientName
         invoiceMonth := g.invoiceMonth
         items := g.items
         totalAmount := (g.items.map (·.amount)).sum
         itemCount := g.items.length } : ProjectItemService.InvoiceGroup)).flatMap (·.items)) =
      (ProjectItemService.rawGroups now (ProjectItemService.eligibleItems items opts)).flatMap
        (·.items) := by
    rw [List.flatMap_map]
  exact (hsort.trans (hmap ▸ rawGroups_flatMap_perm now _))

/-- Every result group of `getInvoiceGroups` has `totalAmount` equal to the
sum of its members' amounts and `itemCount` equal to their number. -/
theorem getInvoiceGroups_total (items : List ProjectItem)
    (opts : ProjectItemService.InvoiceGroupsOptions) (now : JsDate) :
    ∀ g ∈ ProjectItemService.getInvoiceGroups items opts now,
      g.totalAmount = (g.items.map (·.amount)).sum ∧ g.itemCount = g.items.length := by
  intro g hg
  have hg2 : g ∈ (ProjectItemService.rawGroups now
      (ProjectItemService.eligibleItems items opts)).map fun g =>
        ({ clientName := g.clientName
           invoiceMonth := g.invoiceMonth
           items := g.items
           totalAmount := (g.items.map (·.amount)).sum
           itemCount := g.items.length } : ProjectItemService.InvoiceGroup) :=
    (jsSortBy_perm _ _).mem_iff.mp hg
  obtain ⟨g', _, rfl⟩ := List.mem_map.mp hg2
  exact ⟨rfl, rfl⟩

/-- Membership in the year/month filter implies membership in the input. -/
theorem mem_yearMonthFilter {y m : Option Int} {l : List ProjectItem} {i : ProjectItem}
    (h : i ∈ ProjectItemService.yearMonthFilter y m l) : i ∈ l := by
  unfold ProjectItemService.yearMonthFilter at h
  split at h
  · split at h
    · exact List.mem_of_mem_filter h
    · exact h
  · exact h

/-- Membership in the list filter implies membership in the input. -/
theorem mem_listFilter {items : List ProjectItem} {c : Option String}
    {b : Option Bool} {i : ProjectItem}
    (h : i ∈ ProjectItemService.listFilter items c b) : i ∈ items := by
  unfold ProjectItemService.listFilter at h
  split at h
  · split at h
    · exact List.mem_of_mem_filter (List.mem_of_mem_filter h)
    · exact List.mem_of_mem_filter h
  · split at h
    · exact List.mem_of_mem_filter h
    · exact h

/-- Eligible items are drawn from the input collection. -/
theorem mem_eligibleItems {items : List ProjectItem}
    {opts : ProjectItemService.InvoiceGroupsOptions} {i : ProjectItem}
    (h : i ∈ ProjectItemService.eligibleItems items opts) : i ∈ items := by
  unfold ProjectItemService.eligibleItems at h
  exact mem_listFilter (List.mem_of_mem_filter (mem_yearMonthFilter h))

/-- Members of a result group are drawn from the input collection. -/
theorem getInvoiceGroups_mem_items {items : List ProjectItem}
    {opts : ProjectItemService.InvoiceGroupsOptions} {now : JsDate}
    {g : ProjectItemService.InvoiceGroup} {i : ProjectItem}
    (hg : g ∈ ProjectItemService.getInvoiceGroups items opts now) (hi : i ∈ g.items) :
    i ∈ items := by
  have hj : i ∈ (ProjectItemService.getInvoiceGroups items opts now).flatMap (·.items) :=
    List.mem_flatMap.mpr ⟨g, hg, hi⟩
  exact mem_eligibleItems ((getInvoiceGroups_flatMap_perm items opts now).mem_iff.mp hj)

/-- Group totals over any group list sum to the amounts of the flattened
items. -/
theorem groups_total_sum (gs : List ProjectItemService.InvoiceGroup) :
    ((gs.map fun g => ((g.items.map (·.amount)).sum)).sum) =
      ((gs.flatMap (·.items)).map (·.amount)).sum := by
  induction gs with
  | nil => simp
  | cons g t ih => simp [List.flatMap_cons, ih]

/-- A list of naturals summing to zero has no positive element. -/
theorem countP_pos_of_sum_zero (L : List ℕ) (h : L.sum = 0) :
    L.countP (fun n => decide (0 < n)) = 0 := by
  induction L with
  | nil => simp
  | cons a t ih =>
    rw [List.sum_cons] at h
    have ha : a = 0 := by omega
    have ht : t.sum = 0 := by omega
    rw [List.countP_cons]
    simp [ha, ih ht]

/-- A list of naturals summing to one has exactly one positive element. -/
theorem countP_pos_of_sum_one (L : List ℕ) (h : L.sum = 1) :
    L.countP (fun n => decide (0 < n)) = 1 := by
  induction L with
  | nil => simp at h
  | cons a t ih =>
    rw [List.sum_cons] at h
    rw [List.countP_cons]
    rcases Nat.eq_zero_or_pos a with ha | ha
    · have ht : t.sum = 1 := by omega
      simp [ha, ih ht]
    · have ha1 : a = 1 := by omega
      have ht : t.sum = 0 := by omega
      simp [ha1, countP_pos_of_sum_zero t ht]

/-- Counting an item across flattened groups equals the sum of per-group
counts. -/
theorem count_flatMap_groups (i : ProjectItem) (gs : List ProjectItemService.InvoiceGroup) :
    ((gs.flatMap (·.items)).count i) = (gs.map fun g => g.items.count i).sum := by
  induction gs with
  | nil => simp
  | cons g t ih => simp [List.flatMap_cons, List.count_append, ih]

/-- C2: the groups returned by getInvoiceGroups partition the eligible items
(delivered status, optional client/unbilled filters, optional year-month
filter): the flattened group members are a permutation of the eligible
items, each group's totalAmount is the sum of its members' amounts, the
group totals sum to the eligible items' amounts, and an item occurring once
among the eligible items lies in exactly one group. -/
theorem invoice_groups_partition (items : List ProjectItem)
    (opts : ProjectItemService.InvoiceGroupsOptions) (now : JsDate) :
    List.Perm ((ProjectItemService.getInvoiceGroups items opts now).flatMap (·.items))
      (ProjectItemService.eligibleItems items opts) ∧
    (∀ g ∈ ProjectItemService.getInvoiceGroups items opts now,
      g.totalAmount = (g.items.map (·.amount)).sum) ∧
    ((ProjectItemService.getInvoiceGroups items opts now).map (·.totalAmount)).sum
      = ((ProjectItemService.eligibleItems items opts).map (·.amount)).sum ∧
    (∀ i : ProjectItem, (ProjectItemService.eligibleItems items opts).count i = 1 →
      (ProjectItemService.getInvoiceGroups items opts now).countP
          (fun g => decide (i ∈ g.items)) = 1) := by
  have hperm := getInvoiceGroups_flatMap_perm items opts now
  refine ⟨hperm, fun g hg => (getInvoiceGroups_total items opts now g hg).1, ?_, ?_⟩
  · have htot : (ProjectItemService.getInvoiceGroups items opts now).map (·.totalAmount) =
        (ProjectItemService.getInvoiceGroups items opts now).map fun g =>
          ((g.items.map (·.amount)).sum) := by
      apply List.map_congr_left
      intro g hg
      exact (getInvoiceGroups_total items opts now g hg).1
    rw [htot, groups_total_sum]
    exact (hperm.map (·.amount)).sum_eq
  · intro i hcount
    have h1 : ((ProjectItemService.getInvoiceGroups items opts now).flatMap (·.items)).count i
        = 1 := by
      rw [hperm.count_eq]
      exact hcount
    rw [count_flatMap_groups] at h1
    have h2 := countP_pos_of_sum_one _ h1
    rw [List.countP_map] at h2
    calc (ProjectItemService.getInvoiceGroups items opts now).countP
          (fun g => decide (i ∈ g.items))
        = (ProjectItemService.getInvoiceGroups items opts now).countP
          (fun g => decide (0 < g.items.count i)) := by
          apply List.countP_congr
          intro g _
          simp only [decide_eq_true_eq]
          exact (List.count_pos_iff (a := i) (l := g.items)).symm
      _ = 1 := h2

/-- C2 (witness): with the single delivered, unbilled `goodAmountItem` and no
filters, the item occurs once among the eligible items and lies in exactly
one group. -/
theorem invoice_groups_partition_witness :
    (ProjectItemService.eligibleItems [goodAmountItem] {}).count goodAmountItem = 1 ∧
    (ProjectItemService.getInvoiceGroups [goodAmountItem] {} date0).countP
        (fun g => decide (goodAmountItem ∈ g.items)) = 1 := by
  have hc : (ProjectItemService.eligibleItems [goodAmountItem] {}).count goodAmountItem
      = 1 := by
    simp [ProjectItemService.eligibleItems, ProjectItemService.listFilter,
      ProjectItemService.yearMonthFilter, goodAmountItem, List.count_cons]
  exact ⟨hc, (invoice_groups_partition [goodAmountItem] {} date0).2.2.2 goodAmountItem hc⟩

/-- Rearrangement used by the pricing proofs. -/
theorem addShuffle (a f b : ℚ) : a + f + b = a + b + f := by ring

/-- Mapping a projection over an enumerated list forgets the indices. -/
theorem enum_map_comp (l : List α) (f : α → β) :
    (l.enum.map fun p => f p.2) = l.map f := by
  have h := List.enum_map_snd l
  calc l.enum.map (fun p => f p.2) = (l.enum.map Prod.snd).map f := by
        rw [List.map_map]; rfl
    _ = l.map f := by rw [h]

/-- For an all-taxable item list the taxable subtotal is the full amount sum
and the non-taxable subtotal vanishes. -/
theorem invAllTaxable_sums (l : List InvoiceItem) (h : ∀ it ∈ l, it.taxable = true) :
    invTaxableSub l = (l.map (·.amount)).sum ∧ invNonTaxableSub l = 0 := by
  constructor
  · unfold invTaxableSub
    rw [List.filter_eq_self.mpr h]
  · unfold invNonTaxableSub
    have hnil : l.filter (fun i => !i.taxable) = [] := by
      rw [List.filter_eq_nil_iff]
      intro a ha
      simp [h a ha]
    rw [hnil]
    rfl

/-- C1 (amended): pricing by `create`/`update` in `QuoteService` and
`InvoiceService` recomputes every item amount as quantity × unitPrice and
establishes subtotal = taxable + non-taxable sums, taxAmount =
floor(taxable subtotal × taxRate), totalAmount = subtotal + taxAmount (for
`update` the item-amount recomputation applies when items are supplied).
`LarkBaseInvoiceService.generateInvoice` establishes the same
subtotal/taxAmount/totalAmount relations, but copies each item amount from
the stored line item instead of recomputing it, so its items satisfy
amount = quantity × unitPrice only when the stored line items do. -/
theorem pricing_relations :
    (∀ (data : InvoiceService.InvoiceCreateData) (id num : String) (now : JsDate),
      (∀ it ∈ (InvoiceService.create data id num now).items,
        it.amount = it.quantity * it.unitPrice) ∧
      invoiceDocConsistent (InvoiceService.create data id num now)) ∧
    (∀ (inv : Invoice) (data : InvoiceService.PartialInvoice) (now : JsDate),
      invoiceDocConsistent (InvoiceService.update inv data now) ∧
      (∀ its, data.items = some its →
        ∀ it ∈ (InvoiceService.update inv data now).items,
          it.amount = it.quantity * it.unitPrice)) ∧
    (∀ (data : QuoteService.QuoteCreateData) (id num : String) (now : JsDate),
      (∀ it ∈ (QuoteService.create data id num now).items,
        it.amount = it.quantity * it.unitPrice) ∧
      quoteDocConsistent (QuoteService.create data id num now)) ∧
    (∀ (q : Quote) (data : QuoteService.PartialQuote) (now : JsDate),
      quoteDocConsistent (QuoteService.update q data now) ∧
      (∀ its, data.items = some its →
        ∀ it ∈ (QuoteService.update q data now).items,
          it.amount = it.quantity * it.unitPrice)) ∧
    (∀ (pitems : List ProjectItem) (c m : String)
        (o : LarkBaseInvoiceService.InvoiceGenOptions) (now : JsDate) (inv : Invoice),
      LarkBaseInvoiceService.generateInvoice pitems c m o now = .ok inv →
      invoiceDocConsistent inv ∧
      ((∀ p ∈ pitems, p.amount = p.quantity * p.unitPrice) →
        ∀ it ∈ inv.items, it.amount = it.quantity * it.unitPrice)) := by
  refine ⟨?_, ?_, ?_, ?_, ?_⟩
  · intro data id num now
    constructor
    · intro it hit
      obtain ⟨p, hp, rfl⟩ := List.mem_map.mp hit
      rfl
    · exact ⟨rfl, jsFloor_eq_intFloor _, addShuffle _ _ _⟩
  · intro inv data now
    constructor
    · exact ⟨rfl, jsFloor_eq_intFloor _, addShuffle _ _ _⟩
    · intro its hits it hit
      have hitems : (InvoiceService.update inv data now).items = invReprice its := by
        simp only [InvoiceService.update, hits]
        rfl
      rw [hitems] at hit
      obtain ⟨p, hp, rfl⟩ := List.mem_map.mp hit
      rfl
  · intro data id num now
    constructor
    · intro it hit
      obtain ⟨p, hp, rfl⟩ := List.mem_map.mp hit
      rfl
    · exact ⟨rfl, jsFloor_eq_intFloor _, addShuffle _ _ _⟩
  · intro q data now
    constructor
    · exact ⟨rfl, jsFloor_eq_intFloor _, addShuffle _ _ _⟩
    · intro its hits it hit
      have hitems : (QuoteService.update q data now).items = quoteReprice its := by
        simp only [QuoteService.update, hits]
        rfl
      rw [hitems] at hit
      obtain ⟨p, hp, rfl⟩ := List.mem_map.mp hit
      rfl
  · intro pitems c m o now inv h
    rcases hfind : (ProjectItemService.getInvoiceGroups pitems
        { clientName := some c, onlyUnInvoiced := some true } now).find?
          (fun g => g.clientName == c && g.invoiceMonth == m) with _ | tg
    · simp only [LarkBaseInvoiceService.generateInvoice, hfind] at h
      exact absurd h (by simp)
    · simp only [LarkBaseInvoiceService.generateInvoice, hfind, Except.ok.injEq] at h
      have htg : tg ∈ ProjectItemService.getInvoiceGroups pitems
          { clientName := some c, onlyUnInvoiced := some true } now :=
        List.mem_of_find?_eq_some hfind
      have htot : tg.totalAmount = (tg.items.map (·.amount)).sum :=
        (getInvoiceGroups_total pitems _ now tg htg).1
      have hAllTax : ∀ it ∈ inv.items, it.taxable = true := by
        intro it hit
        rw [← h] at hit
        obtain ⟨p, hp, rfl⟩ := List.mem_map.mp hit
        rfl
      have hAmounts : inv.items.map (·.amount) = tg.items.map (·.amount) := by
        rw [← h]
        rw [List.map_map]
        exact enum_map_comp tg.items (·.amount)
      have hsums := invAllTaxable_sums inv.items hAllTax
      have hsub : invTaxableSub inv.items = tg.totalAmount := by
        rw [hsums.1, hAmounts, htot]
      have hsubeq : inv.subtotal = tg.totalAmount := by rw [← h]
      have hrate : inv.taxRate = freeeExportTaxRate := by rw [← h]
      have htax : inv.taxAmount = jsFloor (tg.totalAmount * freeeExportTaxRate) := by
        rw [← h]
      have htotal : inv.totalAmount = inv.subtotal + inv.taxAmount := by
        rw [← h]
      constructor
      · refine ⟨?_, ?_, htotal⟩
        · rw [hsubeq, hsums.2, hsub, add_zero]
        · rw [htax, hsub, hrate, jsFloor_eq_intFloor]
      · intro hall it hit
        rw [← h] at hit
        obtain ⟨p, hp, rfl⟩ := List.mem_map.mp hit
        have hp2 : p.2 ∈ tg.items := List.snd_mem_of_mem_enumFrom hp
        exact hall p.2 (getInvoiceGroups_mem_items htg hp2)

/-- Evaluation helper: the invoice groups of the single bad-amount item. -/
theorem groups_badAmountItem :
    ProjectItemService.getInvoiceGroups [badAmountItem]
        { clientName := some "株式会社ontsugi", onlyUnInvoiced := some true } date0 =
      [{ clientName := "株式会社ontsugi", invoiceMonth := "2025年01月",
         items := [badAmountItem], totalAmount := 5, itemCount := 1 }] := by
  simp [ProjectItemService.getInvoiceGroups, ProjectItemService.eligibleItems,
    ProjectItemService.listFilter, ProjectItemService.yearMonthFilter,
    ProjectItemService.rawGroups, ProjectItemService.insertGrouped,
    ProjectItemService.groupMonth, jsSortBy, insertSorted, badAmountItem]

/-- C1 (counterexample): generating an invoice from the group of a stored
line item with amount 5 but quantity 2 and unitPrice 10 produces an invoice
item whose amount is 5, not 2 × 10 = 20 — the claim's "each item's amount
equals quantity * unitPrice" fails for `generateInvoice`. -/
theorem generateInvoice_copies_stored_amount :
    ((LarkBaseInvoiceService.generateInvoice [badAmountItem] ("株式会社ontsugi")
        ("2025年01月") genOpts0 date0).toOption.map
      fun inv => inv.items.map fun it => (it.amount, it.quantity * it.unitPrice))
      = some [((5 : ℚ), (20 : ℚ))] ∧ ((5 : ℚ)) ≠ ((20 : ℚ)) := by
  refine ⟨?_, by norm_num⟩
  rw [LarkBaseInvoiceService.generateInvoice, groups_badAmountItem]
  norm_num [List.find?, List.enum, List.enumFrom, badAmountItem, Except.toOption]

/-- Evaluation helper: generating an invoice from the single good-amount
item yields the sample invoice. -/
theorem generateInvoice_goodAmountItem :
    LarkBaseInvoiceService.generateInvoice [goodAmountItem] ("株式会社ontsugi")
        ("2025年01月") genOpts0 date0 = .ok sampleGeneratedInvoice := by
  have hgroups : ProjectItemService.getInvoiceGroups [goodAmountItem]
      { clientName := some "株式会社ontsugi", onlyUnInvoiced := some true } date0 =
      [{ clientName := "株式会社ontsugi", invoiceMonth := "2025年01月",
         items := [goodAmountItem], totalAmount := 20000, itemCount := 1 }] := by
    simp [ProjectItemService.getInvoiceGroups, ProjectItemService.eligibleItems,
      ProjectItemService.listFilter, ProjectItemService.yearMonthFilter,
      ProjectItemService.rawGroups, ProjectItemService.insertGrouped,
      ProjectItemService.groupMonth, jsSortBy, insertSorted, goodAmountItem]
  rw [LarkBaseInvoiceService.generateInvoice, hgroups]
  norm_num [List.find?, List.enum, List.enumFrom, goodAmountItem,
    sampleGeneratedInvoice, genOpts0, date0, jsOrDefault, freeeExportTaxRate,
    LarkBaseInvoiceService.generateInvoiceNumber,
    LarkBaseInvoiceService.clientCodeOf, LarkBaseInvoiceService.findYYYYMM,
    LarkBaseInvoiceService.sliceLast4, jsFloor_eq_intFloor, Invoice.mk.injEq,
    InvoiceItem.mk.injEq]
  decide

/-- C1 (witness): the amended pricing relations hold at concrete inputs —
for `update` with explicitly supplied (empty) items, and for the invoice
generated from the well-formed `goodAmountItem` group. -/
theorem pricing_relations_witness :
    invoiceDocConsistent (InvoiceService.update draftPaidInvoice
      { items := some [], taxRate := some (0.1 : ℚ) } date0) ∧
    (∀ it ∈ (InvoiceService.update draftPaidInvoice
        { items := some [], taxRate := some (0.1 : ℚ) } date0).items,
      it.amount = it.quantity * it.unitPrice) ∧
    invoiceDocConsistent sampleGeneratedInvoice ∧
    (∀ it ∈ sampleGeneratedInvoice.items, it.amount = it.quantity * it.unitPrice) := by
  have h5 := pricing_relations.2.2.2.2 [goodAmountItem] ("株式会社ontsugi")
    ("2025年01月") genOpts0 date0 sampleGeneratedInvoice generateInvoice_goodAmountItem
  have hall : ∀ p ∈ [goodAmountItem], p.amount = p.quantity * p.unitPrice := by
    intro p hp
    rw [List.mem_singleton.mp hp]
    norm_num [goodAmountItem]
  exact ⟨(pricing_relations.2.1 draftPaidInvoice _ date0).1,
    (pricing_relations.2.1 draftPaidInvoice _ date0).2 [] rfl,
    h5.1, h5.2 hall⟩

/-- Splitter step: end of input closes the current field. -/
theorem splitAux_nil (q : Bool) (acc : List Char) :
    splitCSVAux q acc [] = [acc.reverse] := by
  rw [splitCSVAux]

/-- Splitter step: an unquoted comma ends the current field. -/
theorem splitAux_false_comma (acc rest : List Char) :
    splitCSVAux false acc (',' :: rest) = acc.reverse :: splitCSVAux false [] rest := by
  rw [splitCSVAux.eq_def]
  simp

/-- Splitter step: an unquoted quote opens a quoted section. -/
theorem splitAux_false_quote (acc rest : List Char) :
    splitCSVAux false acc ('"' :: rest) = splitCSVAux true acc rest := by
  rw [splitCSVAux.eq_def]
  simp

/-- Splitter step: an ordinary unquoted character joins the current field. -/
theorem splitAux_false_other (c : Char) (acc rest : List Char)
    (h1 : c ≠ ',') (h2 : c ≠ '"') :
    splitCSVAux false acc (c :: rest) = splitCSVAux false (c :: acc) rest := by
  rw [splitCSVAux.eq_def]
  simp [h1, h2]

/-- Splitter step: an ordinary character inside quotes joins the field. -/
theorem splitAux_true_other (c : Char) (acc rest : List Char) (h : c ≠ '"') :
    splitCSVAux true acc (c :: rest) = splitCSVAux true (c :: acc) rest := by
  rw [splitCSVAux.eq_def]
  simp [h]

/-- Splitter step: a doubled quote inside quotes contributes one quote. -/
theorem splitAux_true_quote_quote (acc rest : List Char) :
    splitCSVAux true acc ('"' :: '"' :: rest) = splitCSVAux true ('"' :: acc) rest := by
  rw [splitCSVAux.eq_def]
  simp

/-- Splitter step: a closing quote at the end of input closes the field. -/
theorem splitAux_true_quote_end (acc : List Char) :
    splitCSVAux true acc ['"'] = [acc.reverse] := by
  rw [splitCSVAux.eq_def]
  simp

/-- Splitter step: a closing quote followed by a non-quote leaves the quoted
section. -/
theorem splitAux_true_quote_other (c : Char) (acc rest : List Char) (h : c ≠ '"') :
    splitCSVAux true acc ('"' :: c :: rest) = splitCSVAux false acc (c :: rest) := by
  rw [splitCSVAux.eq_def]
  simp [h]

/-- Consuming an unquoted field: characters free of commas and quotes are
moved onto the accumulator unchanged. -/
theorem splitAux_unquoted (f : List Char) (hf : ∀ c ∈ f, c ≠ ',' ∧ c ≠ '"') :
    ∀ (acc rest : List Char),
      splitCSVAux false acc (f ++ rest) = splitCSVAux false (f.reverse ++ acc) rest := by
  induction f with
  | nil => intro acc rest; simp
  | cons c f' ih =>
    intro acc rest
    have hc := hf c (List.mem_cons_self c f')
    rw [List.cons_append, splitAux_false_other c acc (f' ++ rest) hc.1 hc.2,
      ih (fun d hd => hf d (List.mem_cons_of_mem c hd)) (c :: acc) rest]
    simp

/-- Consuming a quoted field body: the doubled quotes collapse and the
closing quote returns to unquoted mode, provided the remainder does not start
with another quote. -/
theorem splitAux_quoted (f : List Char) :
    ∀ (acc rest : List Char), (∀ r, rest ≠ '"' :: r) →
      splitCSVAux true acc (FreeeExportService.doubledQuotes f ++ ('"' :: rest)) =
        splitCSVAux false (f.reverse ++ acc) rest := by
  induction f with
  | nil =>
    intro acc rest hrest
    simp only [FreeeExportService.doubledQuotes, List.flatMap_nil, List.nil_append,
      List.reverse_nil]
    cases rest with
    | nil => rw [splitAux_true_quote_end, splitAux_nil]
    | cons c2 r2 =>
      have hc2 : c2 ≠ '"' := by
        intro hc
        exact hrest r2 (by rw [hc])
      rw [splitAux_true_quote_other c2 acc r2 hc2]
  | cons c f' ih =>
    intro acc rest hrest
    by_cases hc : c = '"'
    · subst hc
      have hdq : FreeeExportService.doubledQuotes ('"' :: f') =
          '"' :: '"' :: FreeeExportService.doubledQuotes f' := by
        simp [FreeeExportService.doubledQuotes]
      rw [hdq, List.cons_append, List.cons_append, splitAux_true_quote_quote,
        ih ('"' :: acc) rest hrest]
      simp
    · have hdq : FreeeExportService.doubledQuotes (c :: f') =
          c :: FreeeExportService.doubledQuotes f' := by
        simp [FreeeExportService.doubledQuotes, hc]
      rw [hdq, List.cons_append, splitAux_true_other c acc _ hc,
        ih (c :: acc) rest hrest]
      simp

/-- Consuming one escaped field: the splitter recovers exactly the original
field characters, leaving the remainder (empty or comma-led) untouched. -/
theorem splitAux_field (f acc rest : List Char)
    (hrest : rest = [] ∨ ∃ r, rest = ',' :: r) :
    splitCSVAux false acc (FreeeExportService.escChars f ++ rest) =
      splitCSVAux false (f.reverse ++ acc) rest := by
  have hrq : ∀ r, rest ≠ '"' :: r := by
    intro r hr
    rcases hrest with h0 | ⟨r2, h2⟩
    · rw [h0] at hr; exact List.noConfusion hr
    · rw [h2] at hr
      have hcomma : ',' = '"' := List.head_eq_of_cons_eq hr
      exact absurd hcomma (by decide)
  by_cases hesc : (f.contains ',' || f.contains '"' || f.contains '\n') = true
  · have hesc2 : FreeeExportService.escChars f =
        '"' :: (FreeeExportService.doubledQuotes f ++ ['"']) := by
      unfold FreeeExportService.escChars
      rw [if_pos hesc]
    rw [hesc2]
    have harr : ('"' :: (FreeeExportService.doubledQuotes f ++ ['"'])) ++ rest =
        '"' :: (FreeeExportService.doubledQuotes f ++ ('"' :: rest)) := by simp
    rw [harr, splitAux_false_quote, splitAux_quoted f acc rest hrq]
  · have hesc2 : FreeeExportService.escChars f = f := by
      unfold FreeeExportService.escChars
      rw [if_neg hesc]
    have hf : ∀ c ∈ f, c ≠ ',' ∧ c ≠ '"' := by
      simp only [Bool.or_eq_true, not_or] at hesc
      simp only [List.contains_iff_exists_mem_beq] at hesc
      intro c hc
      constructor
      · intro h
        exact hesc.1.1 ⟨c, hc, by simp [h]⟩
      · intro h
        exact hesc.1.2 ⟨c, hc, by simp [h]⟩
    rw [hesc2, splitAux_unquoted f hf acc rest]

/-- Splitting the comma-join of escaped fields recovers the fields. -/
theorem splitAux_join :
    ∀ fs : List (List Char), fs ≠ [] →
      splitCSVAux false []
        (FreeeExportService.joinChars ',' (fs.map FreeeExportService.escChars)) = fs := by
  intro fs
  induction fs with
  | nil => intro h; exact absurd rfl h
  | cons f t ih =>
    intro _
    cases t with
    | nil =>
      show splitCSVAux false []
        (FreeeExportService.joinChars ',' [FreeeExportService.escChars f]) = [f]
      have hj : FreeeExportService.joinChars ',' [FreeeExportService.escChars f] =
          FreeeExportService.escChars f := by
        rw [FreeeExportService.joinChars]
      rw [hj, show FreeeExportService.escChars f =
        FreeeExportService.escChars f ++ [] from by simp,
        splitAux_field f [] [] (Or.inl rfl), splitAux_nil]
      simp
    | cons f2 t2 =>
      have hj : FreeeExportService.joinChars ','
          ((f :: f2 :: t2).map FreeeExportService.escChars) =
          FreeeExportService.escChars f ++
            (',' :: FreeeExportService.joinChars ','
              ((f2 :: t2).map FreeeExportService.escChars)) := by
        rw [List.map_cons]
        rw [FreeeExportService.joinChars]
        simp
      rw [hj, splitAux_field f []
        (',' :: FreeeExportService.joinChars ',' ((f2 :: t2).map FreeeExportService.escChars))
        (Or.inr ⟨_, rfl⟩), splitAux_false_comma, ih (by simp)]
      simp

/-- C7: the CSV produced by `exportToCSV` has a 13-column header row, and
every row (header and data rows alike), when split respecting the quoting
rules, yields back exactly its 13 fields. -/
theorem csv_rows_thirteen_fields (invoices : List Invoice)
    (o : FreeeExportService.ExportOptions) :
    FreeeExportService.FREEE_CSV_HEADERS.length = 13 ∧
    ∀ row ∈ FreeeExportService.csvRows invoices o,
      splitCSV (FreeeExportService.csvLine row) = row ∧
      (splitCSV (FreeeExportService.csvLine row)).length = 13 := by
  refine ⟨rfl, ?_⟩
  intro row hrow
  have hlen : row.length = 13 := by
    rcases List.mem_cons.mp hrow with hh | hentry
    · rw [hh]; rfl
    · obtain ⟨e, _, rfl⟩ := List.mem_map.mp hentry
      rfl
  have hne : row ≠ [] := by
    intro h
    rw [h] at hlen
    simp at hlen
  have h1 : splitCSVAux false [] (FreeeExportService.joinChars ','
      ((row.map String.data).map FreeeExportService.escChars)) = row.map String.data :=
    splitAux_join _ (by simpa using hne)
  have h2 : (row.map fun s => FreeeExportService.escChars s.data) =
      (row.map String.data).map FreeeExportService.escChars := by
    rw [List.map_map]; rfl
  have hround : splitCSV (FreeeExportService.csvLine row) = row := by
    unfold splitCSV FreeeExportService.csvLine
    rw [show (String.mk (FreeeExportService.joinChars ','
        (row.map fun s => FreeeExportService.escChars s.data))).data =
      FreeeExportService.joinChars ',' (row.map fun s => FreeeExportService.escChars s.data)
      from rfl]
    rw [h2, h1, List.map_map]
    have hid : (String.mk ∘ String.data) = (id : String → String) :=
      funext fun s => rfl
    rw [hid, List.map_id]
  exact ⟨hround, by rw [hround]; exact hlen⟩

/-- C7 (witness): the header row itself splits back into its 13 fields. -/
theorem csv_rows_thirteen_fields_witness :
    splitCSV (FreeeExportService.csvLine FreeeExportService.FREEE_CSV_HEADERS) =
      FreeeExportService.FREEE_CSV_HEADERS ∧
    (splitCSV (FreeeExportService.csvLine FreeeExportService.FREEE_CSV_HEADERS)).length
      = 13 :=
  (csv_rows_thirteen_fields [] {}).2 FreeeExportService.FREEE_CSV_HEADERS
    (by simp [FreeeExportService.csvRows, FreeeExportService.sortedEntries,
      FreeeExportService.exportFilter, jsSortBy])

end OntsugiCRM
